import Mathlib

/-!
Verification development for the conversational slot-filling engine of
src/app/talk_to_fill.py.

The Python module is shallowly embedded below.  Python dicts (whose keys are
unique and whose iteration order is insertion order) are modelled as
association lists over String; a dict-entry assignment is modelled by
updating the first (hence only) entry with the given key.  Python string
operations are modelled over the list of code points (Python indexes and
slices strings by code point, exactly like List Char here).  The two
external LLM services (slot extraction and dialogue generation) are
modelled as oracle inputs to the orchestrator, and json.loads is modelled
as an oracle parameter of parse_json_with_comments; everything else is
translated directly from the source.
-/

/-! ### String helpers (Python semantics) -/

/-- listStarts pat l: pat is an initial segment of l (Python str.startswith). -/
def listStarts : List Char → List Char → Bool
  | [], _ => true
  | _ :: _, [] => false
  | a :: as, b :: bs => a == b && listStarts as bs

/-- listInside pat l: pat occurs contiguously inside l (Python "pat in s"). -/
def listInside (pat : List Char) : List Char → Bool
  | [] => pat.isEmpty
  | s@(_ :: rest) => listStarts pat s || listInside pat rest

/-- strContains s pat models the Python expression "pat in s". -/
def strContains (s pat : String) : Bool := listInside pat.toList s.toList

/-- strStarts s pat models the Python expression "s.startswith(pat)". -/
def strStarts (s pat : String) : Bool := listStarts pat.toList s.toList

/-- Whitespace characters recognised by Python str.strip / regex \s
(ASCII range; the schema files are ASCII-plus-Hangul so this suffices). -/
def pyWhitespace (c : Char) : Bool :=
  c == ' ' || c == '\t' || c == '\n' || c == '\r' ||
  c == Char.ofNat 11 || c == Char.ofNat 12

/-- Right strip (Python str.rstrip with no arguments). -/
def rstripChars (l : List Char) : List Char :=
  (l.reverse.dropWhile pyWhitespace).reverse

/-- Both-ends strip (Python str.strip with no arguments). -/
def stripChars (l : List Char) : List Char :=
  rstripChars (l.dropWhile pyWhitespace)

/-- pyStrip models Python str.strip(). -/
def pyStrip (s : String) : String := String.mk (stripChars s.toList)

/-- strTake s n models the Python slice s[:n] (by code point). -/
def strTake (s : String) (n : Nat) : String := String.mk (s.toList.take n)

/-- strLen models Python len(s) (number of code points). -/
def strLen (s : String) : Nat := s.toList.length

/-- Decimal digits of a Nat, accumulator style.  The fuel argument only
bounds the recursion depth (one digit is produced per step, so any fuel
above the digit count is exact); it keeps the definition structurally
recursive and hence computable by the kernel. -/
def pyStrNatCore : Nat → Nat → List Char → List Char
  | 0, _, acc => acc
  | fuel + 1, n, acc =>
    if n = 0 then acc
    else pyStrNatCore fuel (n / 10) (Char.ofNat (48 + n % 10) :: acc)

/-- Decimal rendering of a Nat, as Python str(...) produces it. -/
def pyStrNat (n : Nat) : String :=
  if n = 0 then "0" else String.mk (pyStrNatCore (n + 1) n [])

/-- Decimal rendering of an Int, as Python str(...) produces it. -/
def pyStrInt (n : Int) : String :=
  if n < 0 then "-" ++ pyStrNat (-n).toNat else pyStrNat n.toNat

/-- Python int(s): optional surrounding whitespace, optional sign, one or
more ASCII digits.  (Python additionally accepts underscores between
digits and non-ASCII digits; the schema data never uses either, and no
claim depends on them.) -/
def pythonInt (s : String) : Option Int :=
  let cs := stripChars s.toList
  match cs with
  | [] => none
  | c :: rest =>
    let signed : Int × List Char :=
      if c = '-' then (-1, rest) else if c = '+' then (1, rest) else (1, c :: rest)
    let ds := signed.2
    if ds ≠ [] ∧ ds.all Char.isDigit then
      some (signed.1 * Int.ofNat (ds.foldl (fun a c => a * 10 + (c.toNat - 48)) 0))
    else none

/-! ### Association lists standing for Python dicts -/

/-- First-occurrence lookup (dict access d.get(k) / d[k]). -/
def alookup {β : Type} : List (String × β) → String → Option β
  | [], _ => none
  | p :: t, k => if p.1 = k then some p.2 else alookup t k

/-- First-occurrence update (dict assignment d[k] = v; keys are unique in
Python dicts, so updating the first entry is exact). -/
def aset {β : Type} : List (String × β) → String → β → List (String × β)
  | [], _, _ => []
  | p :: t, k, v => if p.1 = k then (k, v) :: t else p :: aset t k v

/-- Number of entries whose value is a non-empty string (used for the
filled-count bookkeeping of the engine). -/
def countNE (l : List (String × String)) : Nat :=
  (l.filter (fun p => p.2 ≠ "")).length

/-! ### Data model (Session / DocumentState, talk_to_fill.py lines 387-433) -/

/-- DocumentState: one form document of a session.  The filled_count is a
Python int, which the engine increments and decrements, so it is an Int.
The immutable template snapshot stored alongside is never read by any of
the engine operations and is omitted. -/
structure DocState where
  fields : List (String × String)
  descriptions : List (String × String)
  filled_count : Int
  total_count : Nat
deriving DecidableEq, Repr

/-- Session: the per-session form state kept in form_session_store.
final_confirmation_shown is absent from a fresh session and only ever set
to True/False; since the code only tests its truthiness, absent is
modelled as false.  guardian_exists is None/True/False, an Option Bool. -/
structure Session where
  category : String
  documents : List (String × DocState)
  current_document : Option String
  completed : Bool
  guardian_checked : Bool
  guardian_exists : Option Bool
  final_confirmation_shown : Bool
  initial_total_fields : Nat
deriving DecidableEq, Repr

/-- One entry of the unfilled-field list returned by get_unfilled_fields. -/
structure Candidate where
  document : String
  field : String
  description : String
deriving DecidableEq, Repr

/-- First-occurrence transform of a document entry (document names are
unique Python dict keys, so transforming the first entry is exact). -/
def dset : List (String × DocState) → String → (DocState → DocState) →
    List (String × DocState)
  | [], _, _ => []
  | p :: t, dn, f => if p.1 = dn then (p.1, f p.2) :: t else p :: dset t dn f

/-- Replace a document entry of a session, applying f to its DocState. -/
def setDoc (s : Session) (dn : String) (f : DocState → DocState) : Session :=
  { s with documents := dset s.documents dn f }

/-! ### COMMON_FIELD_GROUPS_BY_CATEGORY (talk_to_fill.py lines 41-183).
Python set literals are modelled as lists of their (distinct) members in
written order; the engine only uses membership and per-member iteration. -/

def COMMON_FIELD_GROUPS_BY_CATEGORY : List (String × List (List String)) :=
  [("청년월세",
    [["delegator.name", "recipient.name", "signature.applicant_name", "signature.reporter_name"],
     ["delegator.birthdate", "recipient.birthdate"],
     ["delegator.number", "recipient.number"],
     ["recipient.mobile"],
     ["delegator.address", "recipient.address"],
     ["delegate.name", "representative_recipient.name"],
     ["delegate.birthdate", "representative_recipient.birthdate"],
     ["delegate.number", "representative_recipient.phone", "representative_recipient.number"],
     ["delegate.address", "representative_recipient.address"],
     ["delegate.relationship_to_delegator", "representative_recipient.relationship_to_recipient"]]),
   ("국민연금",
    [["person.name", "reporter.name", "subscriber.name", "signature.applicant_name", "signature.reporter_name"],
     ["person.resident_number", "reporter.resident_number", "subscriber.resident_number"],
     ["person.phone", "reporter.phone", "subscriber.phone"],
     ["person.mobile", "reporter.mobile", "subscriber.mobile"],
     ["person.address", "reporter.address", "subscriber.address"]]),
   ("전입신고", []),
   ("토지-건축물", []),
   ("주거급여",
    [["recipient.name", "applicant.name", "signature.applicant_name", "signature.reporter_name", "bank_account.name"],
     ["recipient.birthdate"],
     ["applicant.resident_number"],
     ["applicant.phone"],
     ["applicant.mobile"],
     ["recipient.address", "applicant.address.registered"],
     ["bank_account.bank_name"],
     ["bank_account.account_number"]])]

/-- Groups of a session category: COMMON_FIELD_GROUPS_BY_CATEGORY.get(category, []). -/
def categoryGroups (cat : String) : List (List String) :=
  (alookup COMMON_FIELD_GROUPS_BY_CATEGORY cat).getD []

/-! ### auto_fill_common_fields (talk_to_fill.py lines 482-531) -/

/-- One write attempt of auto_fill_common_fields: a group member other
than the source that exists in the document and is currently the empty
string receives the value, and the filled count is incremented (the
source checks the truthiness of old_value, i.e. emptiness, but not the
truthiness of the written value). -/
def autoFillStep (source_field value : String) (d : DocState) (f : String) : DocState :=
  if f = source_field then d
  else
    match alookup d.fields f with
    | some old =>
      if old ≠ "" then d
      else { d with fields := aset d.fields f value, filled_count := d.filled_count + 1 }
    | none => d

/-- One document pass of auto_fill_common_fields over every group member. -/
def autoFillDoc (related : List String) (source_field value : String) (dd : DocState) : DocState :=
  related.foldl (autoFillStep source_field value) dd

/-- auto_fill_common_fields: find the group of the source field for the
session category and back-fill it into every document. -/
def auto_fill_common_fields (s : Session) (source_field value : String) : Session :=
  match (categoryGroups s.category).find? (fun g => g.contains source_field) with
  | none => s
  | some related =>
    { s with documents := s.documents.map (fun p => (p.1, autoFillDoc related source_field value p.2)) }

/-! ### auto_calculate_period (talk_to_fill.py lines 534-618) -/

def dateFieldPatterns : List String :=
  ["start_year", "start_month", "end_year", "end_month", "start_date", "end_date"]

/-- Text before the last dot of a field name (Python field_name.rsplit(".", 1)[0]),
none when the name has no dot. -/
def rsplitPrefix (f : String) : Option String :=
  let cs := f.toList
  if cs.contains '.' then
    some (String.mk ((cs.reverse.dropWhile (fun c => c ≠ '.')).drop 1).reverse)
  else none

/-- The per-document body of auto_calculate_period: when the updated
field name is date-like and the prefix has all five period fields with
non-empty numeric start/end parts, write the clamped month difference
into the total_months field (counting a filled transition when it was
empty); otherwise, and on a parse failure, leave the document unchanged. -/
def calcDoc (field_name : String) (dd : DocState) : DocState :=
  if ¬ (dateFieldPatterns.any (fun pat => strContains field_name pat)) then dd
  else
    match rsplitPrefix field_name with
    | none => dd
    | some pfx =>
      let syF := pfx ++ ".start_year"
      let smF := pfx ++ ".start_month"
      let eyF := pfx ++ ".end_year"
      let emF := pfx ++ ".end_month"
      let tmF := pfx ++ ".total_months"
      if ¬ ((alookup dd.fields syF).isSome ∧ (alookup dd.fields smF).isSome ∧
            (alookup dd.fields eyF).isSome ∧ (alookup dd.fields emF).isSome ∧
            (alookup dd.fields tmF).isSome) then dd
      else
        let syV := (alookup dd.fields syF).getD ""
        let smV := (alookup dd.fields smF).getD ""
        let eyV := (alookup dd.fields eyF).getD ""
        let emV := (alookup dd.fields emF).getD ""
        if syV = "" ∨ smV = "" ∨ eyV = "" ∨ emV = "" then dd
        else
          match pythonInt syV, pythonInt smV, pythonInt eyV, pythonInt emV with
          | some sy, some sm, some ey, some em =>
            let t0 : Int := (ey - sy) * 12 + (em - sm)
            let total : Int := if t0 < 0 then 0 else t0
            let oldT := (alookup dd.fields tmF).getD ""
            { dd with fields := aset dd.fields tmF (pyStrInt total),
                      filled_count := dd.filled_count + (if oldT = "" then 1 else 0) }
          | _, _, _, _ => dd

/-- auto_calculate_period: the calculator reads and rewrites the named
document of the session (a missing document leaves it untouched). -/
def auto_calculate_period (s : Session) (document_name field_name : String) : Session :=
  match alookup s.documents document_name with
  | none => s
  | some _ => setDoc s document_name (calcDoc field_name)

/-! ### update_form_field (talk_to_fill.py lines 441-479) -/

/-- update_form_field: write the value into the named field of the named
document (adjusting the filled count on empty/non-empty transitions), then
run common-field propagation and the period calculator.  Returns the new
session and the success flag the Python function returns. -/
def update_form_field (s : Session) (document_name field_name value : String) : Session × Bool :=
  match alookup s.documents document_name with
  | none => (s, false)
  | some dd =>
    match alookup dd.fields field_name with
    | none => (s, false)
    | some old =>
      let delta : Int :=
        if old = "" ∧ value ≠ "" then 1 else if old ≠ "" ∧ value = "" then -1 else 0
      let s1 := setDoc s document_name (fun d =>
        { d with fields := aset d.fields field_name value, filled_count := d.filled_count + delta })
      let s2 := auto_fill_common_fields s1 field_name value
      let s3 := auto_calculate_period s2 document_name field_name
      (s3, true)

/-! ### get_unfilled_fields (talk_to_fill.py lines 621-786) -/

/-- Field name patterns of auto-calculated fields (never asked). -/
def autoCalculatedPatterns : List String :=
  ["total_months", "period", "duration", "total_days"]

/-- The guardian field marker; the source tests it with the substring
operator "guardian." in field_name. -/
def guardianPattern : String := "guardian."

/-- True when any document has a field whose name contains "guardian.". -/
def hasGuardianFields (s : Session) : Bool :=
  s.documents.any (fun p => p.2.fields.any (fun q => strContains q.1 guardianPattern))

/-- The guardian-marked fields whose value is still the empty string, in
document order then field order, as collected by lines 650-662. -/
def guardianEmptyFields (s : Session) : List Candidate :=
  s.documents.flatMap (fun p =>
    (p.2.fields.filter (fun q => strContains q.1 guardianPattern && q.2 == "")).map
      (fun q => ⟨p.1, q.1, (alookup p.2.descriptions q.1).getD q.1⟩))

/-- True when some member of the group holds a non-empty, non-"N/A" value
in some document (the group is then "satisfied", lines 683-693). -/
def groupFilled (s : Session) (g : List String) : Bool :=
  g.any (fun f => s.documents.any (fun p =>
    match alookup p.2.fields f with
    | some v => v ≠ "" && v ≠ "N/A"
    | none => false))

/-- Indices of satisfied groups. -/
def filledGroupIdxs (s : Session) (groups : List (List String)) : List Nat :=
  (List.range groups.length).filter (fun i => groupFilled s (groups.getD i []))

/-- First group index containing the field, as computed by lines 714-718. -/
def findGroupIdx : List (List String) → String → Option Nat
  | [], _ => none
  | g :: gs, f =>
    if g.contains f then some 0 else (findGroupIdx gs f).map (· + 1)

/-- An entry of the intermediate all_unfilled_fields list (lines 695-727):
a candidate together with its group index (none for a non-group field). -/
structure RawUnfilled where
  document : String
  field : String
  description : String
  group_idx : Option Nat
deriving DecidableEq, Repr

/-- Candidate view of a raw entry. -/
def candOfRaw (r : RawUnfilled) : Candidate := ⟨r.document, r.field, r.description⟩

/-- Collect every empty, non-auto-calculated (and, when the guardian was
confirmed absent, non-guardian) field of every document with its group
index (lines 695-727). -/
def collectUnfilled (s : Session) (groups : List (List String)) : List RawUnfilled :=
  s.documents.flatMap (fun p =>
    p.2.fields.filterMap (fun q =>
      if autoCalculatedPatterns.any (fun pat => strContains q.1 pat) then none
      else if s.guardian_checked && s.guardian_exists == some false
              && strContains q.1 guardianPattern then none
      else if q.2 = "" then
        some ⟨p.1, q.1, (alookup p.2.descriptions q.1).getD q.1, findGroupIdx groups q.1⟩
      else none))

/-- Deduplication pass (lines 729-755): group members of satisfied groups
are dropped, and only the first encountered member of each remaining group
is kept; non-group fields pass through. -/
def dedupUnfilled (filled : List Nat) : List RawUnfilled → List Nat → List Candidate
  | [], _ => []
  | r :: rs, processed =>
    match r.group_idx with
    | some gi =>
      if filled.contains gi then dedupUnfilled filled rs processed
      else if processed.contains gi then dedupUnfilled filled rs processed
      else candOfRaw r :: dedupUnfilled filled rs (gi :: processed)
    | none => candOfRaw r :: dedupUnfilled filled rs processed

/-- get_unfilled_fields.  The document_name parameter of the Python
function is ignored by it, so it is not modelled.  When guardian fields
exist, the guardian question is still unanswered and at least one guardian
field is empty, the single synthetic __guardian_exists__ candidate is
returned; otherwise the deduplicated unfilled list. -/
def get_unfilled_fields (s : Session) : List Candidate :=
  let groups := categoryGroups s.category
  let gf := guardianEmptyFields s
  if hasGuardianFields s && !s.guardian_checked && !gf.isEmpty then
    match gf with
    | c :: _ => [⟨c.document, "__guardian_exists__", "후견인이 있으신가요?"⟩]
    | [] => []
  else
    dedupUnfilled (filledGroupIdxs s groups) (collectUnfilled s groups) []

/-! ### init_form_session (talk_to_fill.py lines 387-433) -/

/-- init_form_session, parameterised by the loaded documents (name,
(template fields, descriptions)): every field starts empty, the first
document is current, and initial_total_fields is the length of the
unfilled list of the fresh session. -/
def init_form_session (category : String)
    (docs : List (String × (List (String × String) × List (String × String)))) : Session :=
  let base : Session :=
    { category := category
      documents := docs.map (fun p =>
        (p.1,
         { fields := p.2.1.map (fun q => (q.1, ""))
           descriptions := p.2.2
           filled_count := 0
           total_count := p.2.1.length }))
      current_document := (docs.map (fun p => p.1)).head?
      completed := false
      guardian_checked := false
      guardian_exists := none
      final_confirmation_shown := false
      initial_total_fields := 0 }
  { base with initial_total_fields := (get_unfilled_fields base).length }

/-! ### Guardian bulk fill (talk_to_fill.py lines 960-969) -/

/-- Write "N/A" into every guardian-marked field of the document that is
still empty, incrementing the filled count once per write. -/
def fillGuardianDoc (dd : DocState) : DocState :=
  { dd with
    fields := dd.fields.map (fun q =>
      if strContains q.1 guardianPattern && q.2 == "" then (q.1, "N/A") else q)
    filled_count := dd.filled_count +
      (dd.fields.filter (fun q => strContains q.1 guardianPattern && q.2 == "")).length }

/-- The whole-session guardian bulk fill performed on entering the
confirmed-absent state. -/
def fillGuardianNA (s : Session) : Session :=
  { s with documents := s.documents.map (fun p => (p.1, fillGuardianDoc p.2)) }

/-! ### fill_common_fields_for_pdf (talk_to_fill.py lines 1470-1519) -/

/-- First non-empty, non-"N/A" value of a group member, scanning documents
outer and group members inner (lines 1492-1505). -/
def findGroupValue (s : Session) (g : List String) : Option String :=
  s.documents.findSome? (fun p =>
    g.findSome? (fun f =>
      match alookup p.2.fields f with
      | some v => if v ≠ "" ∧ v ≠ "N/A" then some v else none
      | none => none))

/-- Copy the group value into every still-empty member of the group in
every document.  Note the source performs these writes without touching
filled_count. -/
def fillPdfGroup (s : Session) (g : List String) : Session :=
  match findGroupValue s g with
  | none => s
  | some v =>
    { s with documents := s.documents.map (fun p =>
        (p.1,
         { p.2 with fields := g.foldl (fun fl f =>
             if alookup fl f = some "" then aset fl f v else fl) p.2.fields })) }

/-- fill_common_fields_for_pdf: the defensive pre-export back-fill. -/
def fill_common_fields_for_pdf (s : Session) : Session :=
  (categoryGroups s.category).foldl fillPdfGroup s

/-! ### Keyword vocabularies of process_form_conversation -/

/-- matchesAny ks u: some keyword of ks occurs in the utterance
(Python any(keyword in user_input for keyword in ks)). -/
def matchesAny (ks : List String) (u : String) : Bool :=
  ks.any (fun k => strContains u k)

/-- negative/"modify" vocabulary of the final-confirmation edit check
(line 908; the source list repeats one entry, kept verbatim). -/
def negativeEditKeywords : List String :=
  ["아니", "아뇨", "아니요", "싫어", "수정", "바꿔", "고쳐", "틀렸", "잘못",
   "보여줘", "보여줘", "확인", "다시", "보기", "체크"]

/-- Guardian negative keyword set (line 947). -/
def guardianNegKeywords : List String :=
  ["없", "아니", "아뇨", "아니요", "필요없", "해당없", "해당 없", "없어요", "없습니다"]

/-- Guardian positive keyword set (line 948). -/
def guardianPosKeywords : List String :=
  ["있", "예", "네", "있어요", "있습니다", "있어"]

/-- Skip/not-applicable vocabulary (line 1137). -/
def skipKeywords : List String :=
  ["필요없", "해당없", "해당 없", "모르겠", "없어", "아니", "건너뛰", "스킵"]

/-- Forbidden completion/closing vocabulary of validation check 1
(lines 1359-1365). -/
def completionKeywords : List String :=
  ["작성 완료", "완료되었습니다", "완료했습니다", "끝났습니다",
   "모든 정보가 입력", "서류가 완성", "다 되었습니다", "마무리되었습니다",
   "작성이 끝", "입력이 완료", "모두 작성", "감사합니다", "수고하셨습니다",
   "제출하시겠어요", "제출하실", "확인하셨나요", "확인하실",
   "추가로 필요한", "더 필요한", "필요하신 게", "필요한 사항이"]

/-- Question-pattern suffixes of validation check 3 (lines 1394-1402). -/
def askSuffixes : List String :=
  ["이 어떻게", "은 어떻게", "는 어떻게",
   "을 알려", "를 알려", "을 말씀", "를 말씀",
   "이 뭐", "은 뭐", "는 뭐",
   "을 입력", "를 입력",
   "이요", "요?",
   "을 여쭤", "를 여쭤",
   "이 무엇", "은 무엇", "는 무엇"]

/-! ### Filled-field manifest and validation keywords (lines 1245-1283) -/

/-- Keyword expansion of one filled description (lines 1269-1280). -/
def keywordsForDesc (d : String) : List String :=
  [d]
  ++ (if strContains d "이름" then ["이름", "성함", "성명"] else [])
  ++ (if strContains d "생년월일" then ["생년월일", "생일", "출생"] else [])
  ++ (if strContains d "주소" then ["주소", "거주지", "사는 곳"] else [])
  ++ (if strContains d "전화" || strContains d "번호" then
        ["전화", "연락처", "번호", "핸드폰", "휴대폰"] else [])
  ++ (if strContains d "관계" then ["관계", "어떤 사이"] else [])

/-- Validation keywords collected from every filled (non-empty, non-"N/A")
field.  The source deduplicates them through a Python set whose order is
unspecified; the validator only asks whether any keyword matches, so the
list with duplicates is observationally the same. -/
def filledFieldKeywords (s : Session) : List String :=
  s.documents.flatMap (fun p =>
    p.2.fields.flatMap (fun q =>
      if q.2 ≠ "" ∧ q.2 ≠ "N/A" then
        keywordsForDesc ((alookup p.2.descriptions q.1).getD q.1)
      else []))

/-! ### Response validation (talk_to_fill.py lines 1353-1430) -/

/-- Validation check 1: the generated turn contains a completion/closing
phrase. -/
def checkCompletionPhrase (g : String) : Bool :=
  completionKeywords.any (fun k => strContains g k)

/-- Removal of markdown bold emphasis, re.sub applied to the last line:
two stars, one or more non-star characters, two stars, replaced by the
enclosed run; on a failed match the scan advances one character. -/
def stripBoldCore : Nat → List Char → List Char
  | 0, l => l
  | _ + 1, [] => []
  | fuel + 1, c :: rest =>
    if c = '*' then
      match rest with
      | '*' :: rest2 =>
        if (rest2.takeWhile (fun x => x ≠ '*')).isEmpty then c :: stripBoldCore fuel rest
        else
          match rest2.drop (rest2.takeWhile (fun x => x ≠ '*')).length with
          | '*' :: '*' :: tail =>
            rest2.takeWhile (fun x => x ≠ '*') ++ stripBoldCore fuel tail
          | _ => c :: stripBoldCore fuel rest
      | _ => c :: stripBoldCore fuel rest
    else c :: stripBoldCore fuel rest

/-- stripBold with enough fuel: every step of the scan consumes at least
one character, so length-plus-one steps always finish the input. -/
def stripBold (l : List Char) : List Char := stripBoldCore (l.length + 1) l

/-- Python str.split over a single newline separator: the list of lines
(an empty text yields one empty line, a trailing newline an empty tail
line, exactly as "...".split("\\n") does). -/
def splitLines : List Char → List (List Char)
  | [] => [[]]
  | c :: rest =>
    if c = '\n' then [] :: splitLines rest
    else
      match splitLines rest with
      | l :: ls => (c :: l) :: ls
      | [] => [[c]]

/-- Python "\\n".join. -/
def joinLines : List (List Char) → List Char
  | [] => []
  | [l] => l
  | l :: ls => l ++ '\n' :: joinLines ls

/-- The cleaned last line of the generated turn (lines 1377-1381). -/
def lastLineCleaned (g : String) : List Char :=
  let lines := splitLines (pyStrip g).toList
  let last := (lines.getLast?).getD []
  stripBold (stripChars last)

/-- Validation check 2: the cleaned last line does not end with a
question mark. -/
def checkNotQuestion (g : String) : Bool :=
  !((lastLineCleaned g).getLast? == some '?')

/-- Validation check 3: the turn contains keyword-plus-ask-suffix for an
already-filled field keyword of length at least 2. -/
def checkAskFilled (kws : List String) (g : String) : Bool :=
  kws.any (fun k => decide (2 ≤ strLen k) &&
    askSuffixes.any (fun suf => strContains g (k ++ suf)))

/-- True when any of the three validation checks fails the turn. -/
def validationFails (kws : List String) (g : String) : Bool :=
  checkCompletionPhrase g || checkNotQuestion g || checkAskFilled kws g

/-- Fallback question substituted on validation failure (lines 1424-1430). -/
def fallbackResponse (unfilled : List Candidate) : String :=
  match unfilled with
  | u :: _ => "알겠습니다. " ++ u.description ++ "는 어떻게 되시나요?"
  | [] => "다음 정보를 알려주시겠어요?"

/-- The response validation of lines 1354-1430: performed only when the
unfilled list is non-empty and the generated text is non-empty (a falsy
response_text skips the whole block). -/
def applyValidation (kws : List String) (unfilled : List Candidate) (g : String) : String :=
  if unfilled.isEmpty || g = "" then g
  else if validationFails kws g then fallbackResponse unfilled
  else g

/-! ### Final-confirmation summary (talk_to_fill.py lines 1173-1192) -/

/-- Summary items: for each document only the first 10 fields are
examined; each filled (non-empty, non-"N/A") one contributes a bullet
line, with values longer than 30 code points shortened. -/
def buildSummaryItems (s : Session) : List String :=
  s.documents.flatMap (fun p =>
    (p.2.fields.take 10).filterMap (fun q =>
      if q.2 ≠ "" ∧ q.2 ≠ "N/A" then
        some ("• " ++ (alookup p.2.descriptions q.1).getD q.1 ++ ": " ++
          (if 30 < strLen q.2 then strTake q.2 30 ++ "..." else q.2))
      else none))

/-- The final confirmation message: at most 8 summary items are shown,
with a trailing count of the remaining items. -/
def buildConfirmationMessage (s : Session) : String :=
  let items := buildSummaryItems s
  let summaryText := String.mk (joinLines ((items.take 8).map String.toList))
  let shown :=
    if 8 < items.length then
      summaryText ++ "\n... 외 " ++ pyStrNat (items.length - 8) ++ "개 항목"
    else summaryText
  "모든 정보가 입력되었습니다! 📝\n\n입력하신 주요 내용:\n" ++ shown ++
    "\n\n이대로 제출하시겠습니까?"

/-! ### The orchestrator process_form_conversation (lines 871-1467) -/

/-- The two external LLM results consumed by one orchestrator turn: the
parsed slot-extraction mapping (lines 1070-1100; a parse failure is the
empty mapping) and the generated dialogue turn (lines 1326-1343). -/
structure Oracles where
  extracted : List (String × String)
  genText : String
deriving DecidableEq, Repr

/-- The observable fields of the dict returned from one orchestrator
turn.  awaiting_confirmation and edit_mode are present only in the
summary/edit returns, mirrored here as flags that are false elsewhere.
The form_state sub-dict is derivable from the returned session and is not
duplicated. -/
structure TurnOutput where
  response : String
  extracted_fields : List (String × String)
  unfilled_count : Nat
  completed : Bool
  awaiting_confirmation : Bool
  edit_mode : Bool
deriving DecidableEq, Repr

/-- Try update_form_field on each listed document name in order, skipping
the current document, stopping at the first success (lines 1116-1125). -/
def tryDocs (s : Session) (names : List String) (skip : Option String)
    (fn v : String) : Session × Bool :=
  match names with
  | [] => (s, false)
  | n :: rest =>
    if some n = skip then tryDocs s rest skip fn v
    else
      match update_form_field s n fn v with
      | (s1, true) => (s1, true)
      | (s1, false) => tryDocs s1 rest skip fn v

/-- Apply every extracted field: first against the current document, then
against the remaining documents in order (lines 1108-1128).  A session
with no current document has every direct update fail, as in the source
where documents.get(None) is None. -/
def applyExtracted (s : Session) (cd : Option String)
    (ext : List (String × String)) : Session :=
  ext.foldl
    (fun st q =>
      let direct : Session × Bool :=
        match cd with
        | some c => update_form_field st c q.1 q.2
        | none => (st, false)
      if direct.2 then direct.1
      else (tryDocs direct.1 (direct.1.documents.map (fun p => p.1)) cd q.1 q.2).1)
    s

/-- The skip/not-applicable force fill (lines 1135-1146): when the
utterance matches the skip vocabulary, nothing was extracted and the head
of the unfilled list is not the guardian pseudo-field, the first up-to-5
pending fields are written as "N/A" through update_form_field aimed at the
current document. -/
def applySkip (s : Session) (cd : Option String) (unfilled : List Candidate)
    (user_input : String) (extractedEmpty : Bool) : Session :=
  if matchesAny skipKeywords user_input && extractedEmpty then
    match unfilled with
    | u :: _ =>
      if u.field ≠ "__guardian_exists__" then
        (unfilled.take 5).foldl
          (fun st fi =>
            if fi.field ≠ "__guardian_exists__" then
              match cd with
              | some c => (update_form_field st c fi.field "N/A").1
              | none => st
            else st)
          s
      else s
    | [] => s
  else s

/-- The field-update phase of one turn (lines 1049-1148): when the
unfilled list is empty no extraction happens at all; otherwise the
extracted mapping is applied and the skip force fill may follow. -/
def updatePhase (o : Oracles) (s : Session) (u : String)
    (unfilled : List Candidate) : Session :=
  if unfilled.isEmpty then s
  else applySkip (applyExtracted s s.current_document o.extracted)
    s.current_document unfilled u o.extracted.isEmpty

/-- The shared tail of the turn after the guardian branch: update phase,
recomputed unfilled list, then either the two-step confirmation flow
(lines 1166-1239) or dialogue generation with validation and the final
return (lines 1157-1467, response clipped to 500 code points). -/
def mainFlow (o : Oracles) (s : Session) (u : String)
    (unfilled : List Candidate) : TurnOutput × Session :=
  let ext := if unfilled.isEmpty then [] else o.extracted
  let s2 := updatePhase o s u unfilled
  let unfilled2 := get_unfilled_fields s2
  if unfilled2.isEmpty then
    if !s2.final_confirmation_shown then
      ({ response := buildConfirmationMessage s2
         extracted_fields := []
         unfilled_count := 0
         completed := false
         awaiting_confirmation := true
         edit_mode := false },
       { s2 with final_confirmation_shown := true })
    else
      ({ response := "감사합니다. 제출이 완료되었습니다!"
         extracted_fields := []
         unfilled_count := 0
         completed := true
         awaiting_confirmation := false
         edit_mode := false },
       { s2 with completed := true })
  else
    let resp := applyValidation (filledFieldKeywords s2) unfilled2 o.genText
    let s3 := if unfilled2.isEmpty then { s2 with completed := true } else s2
    ({ response := strTake resp 500
       extracted_fields := ext
       unfilled_count := unfilled2.length
       completed := unfilled2.isEmpty
       awaiting_confirmation := false
       edit_mode := false },
     s3)

/-- One turn of process_form_conversation for an existing session.  The
guardian-question branch (lines 944-1046) runs before extraction; its
negative/positive sub-branches return directly only when the recomputed
unfilled list is non-empty, and otherwise fall through to the shared main
flow exactly as the source control flow does. -/
def processTurn (o : Oracles) (s : Session) (u : String) : TurnOutput × Session :=
  if s.final_confirmation_shown && !s.completed && matchesAny negativeEditKeywords u then
    ({ response := "알겠습니다! 어떤 정보를 수정하시겠어요? 수정하실 내용을 말씀해주세요."
       extracted_fields := []
       unfilled_count := 0
       completed := false
       awaiting_confirmation := false
       edit_mode := true },
     { s with final_confirmation_shown := false })
  else
    let unfilled := get_unfilled_fields s
    match unfilled with
    | u0 :: _ =>
      if u0.field = "__guardian_exists__" then
        let hasNeg := matchesAny guardianNegKeywords u
        let hasPos := matchesAny guardianPosKeywords u
        if hasNeg && !hasPos then
          let s1 := fillGuardianNA
            { s with guardian_checked := true, guardian_exists := some false }
          match get_unfilled_fields s1 with
          | v :: rest =>
            ({ response := "알겠습니다. 후견인 관련 정보는 제외하겠습니다. " ++
                 v.description ++ "는 어떻게 되시나요?"
               extracted_fields := []
               unfilled_count := (v :: rest).length
               completed := false
               awaiting_confirmation := false
               edit_mode := false },
             s1)
          | [] => mainFlow o s1 u unfilled
        else if hasPos then
          let s1 : Session :=
            { s with guardian_checked := true, guardian_exists := some true }
          match get_unfilled_fields s1 with
          | v :: rest =>
            ({ response := "알겠습니다. " ++ v.description ++ "는 어떻게 되시나요?"
               extracted_fields := []
               unfilled_count := (v :: rest).length
               completed := false
               awaiting_confirmation := false
               edit_mode := false },
             s1)
          | [] => mainFlow o s1 u unfilled
        else
          ({ response := "후견인이 있으신가요, 없으신가요?"
             extracted_fields := []
             unfilled_count := unfilled.length
             completed := false
             awaiting_confirmation := false
             edit_mode := false },
           s)
      else mainFlow o s u unfilled
    | [] => mainFlow o s u unfilled

/-- Run a list of turns, collecting the outputs. -/
def runTurns (s : Session) : List (Oracles × String) → List TurnOutput × Session
  | [] => ([], s)
  | t :: rest =>
    let step := processTurn t.1 s t.2
    let tail := runTurns step.2 rest
    (step.1 :: tail.1, tail.2)

/-! ### parse_json_with_comments (talk_to_fill.py lines 189-235) -/

/-- Whether the current character is an unescaped double quote (the
source tests char == a double quote and (i == 0 or line[i-1] != a
backslash)). -/
def quoteToggles (c : Char) (prev : Option Char) : Bool :=
  c == '"' && (match prev with | none => true | some p => p != '\\')

/-- Whether the comment scan breaks here: outside a string, at "//". -/
def commentBreak (c : Char) (rest : List Char) (inStr : Bool) : Bool :=
  !inStr && c == '/' && rest.head? == some '/'

/-- The per-line comment scan (lines 200-213): characters are copied,
an unescaped double quote toggles the in-string state, and a "//" met
outside a string stops the line.  prev is the previously read character. -/
def stripLoop : List Char → Option Char → Bool → List Char
  | [], _, _ => []
  | c :: rest, prev, inStr =>
    if quoteToggles c prev then c :: stripLoop rest (some c) (!inStr)
    else if commentBreak c rest inStr then []
    else c :: stripLoop rest (some c) inStr

/-- The number of characters the scan keeps: the index of the first
outside-string "//", or the line length when none exists. -/
def cutIndex : List Char → Option Char → Bool → Nat
  | [], _, _ => 0
  | c :: rest, prev, inStr =>
    if quoteToggles c prev then 1 + cutIndex rest (some c) (!inStr)
    else if commentBreak c rest inStr then 0
    else 1 + cutIndex rest (some c) inStr

/-- Whether position j of the scan lies inside a quoted string; none when
j is at or beyond the comment cut (those characters are discarded). -/
def inStringAt : List Char → Option Char → Bool → Nat → Option Bool
  | [], _, _, _ => none
  | c :: rest, prev, inStr, j =>
    if quoteToggles c prev then
      if j = 0 then some inStr else inStringAt rest (some c) (!inStr) (j - 1)
    else if commentBreak c rest inStr then none
    else if j = 0 then some inStr else inStringAt rest (some c) inStr (j - 1)

/-- One cleaned line (lines 214-216): comment scan, then rstrip. -/
def stripLineComment (line : String) : String :=
  String.mk (rstripChars (stripLoop line.toList none false))

/-- Keep a cleaned line (line 219): non-empty and not a pure comment line. -/
def keepCleanedLine (cl : String) : Bool :=
  cl ≠ "" && !(listStarts ['/', '/'] (stripChars cl.toList))

/-- The next non-whitespace character is a closing brace or bracket
(the greedy lookahead of the pattern: all consecutive whitespace is
skipped and a backtracked shorter run would face whitespace instead of
the required closer, so the greedy reading is exact). -/
def nextNonWsIsClose (l : List Char) : Bool :=
  match l.dropWhile pyWhitespace with
  | d :: _ => d == Char.ofNat 125 || d == ']'
  | [] => false

/-- The trailing-comma regex sub re.sub(",(\s*[closer])", group).  In
re.sub the replacement re-emits the matched whitespace-and-closer
unchanged and the scan resumes after it; since no comma can occur inside
the matched group, that is exactly the one-character scan dropping every
comma whose next non-whitespace character is a closer. -/
def rtcList : List Char → List Char
  | [] => []
  | c :: rest =>
    if c = ',' ∧ nextNonWsIsClose rest = true then rtcList rest
    else c :: rtcList rest

/-- Whether the scan of rtcList would fire somewhere in the list. -/
def hasTrailingCommaMatch : List Char → Bool
  | [] => false
  | c :: rest => (c == ',' && nextNonWsIsClose rest) || hasTrailingCommaMatch rest

/-- removeTrailingCommas models line 225 of the source. -/
def removeTrailingCommas (s : String) : String := String.mk (rtcList s.toList)

/-- The full cleaning stage of parse_json_with_comments (lines 195-225):
per-line comment stripping, dropping empty/comment-only lines, joining,
then trailing-comma removal. -/
def cleanContent (content : String) : String :=
  removeTrailingCommas
    (String.mk (joinLines
      ((((splitLines content.toList).map
          (fun lc => (stripLineComment (String.mk lc)).toList)).filter
        (fun lc => keepCleanedLine (String.mk lc))))))

/-- parse_json_with_comments, with json.loads supplied as an oracle
jsonLoads (it is a stdlib service external to the engine): the cleaned
content is parsed, and a parse failure yields the empty mapping instead
of an exception (lines 227-235). -/
def parse_json_with_comments {α : Type} (jsonLoads : String → Option α)
    (emptyMapping : α) (content : String) : α :=
  (jsonLoads (cleanContent content)).getD emptyMapping

/-! ### Predicates and operation algebra used by the claims -/

/-- The filled-count invariant of the spec: each document's filled count
equals its number of non-empty field values. -/
def sessionInvariant (s : Session) : Prop :=
  ∀ p ∈ s.documents, p.2.filled_count = (countNE p.2.fields : Int)

/-- The engine mutations considered by the filled-count claim, as an
operation algebra: a field update (which already includes common-field
propagation, the derived-period calculation, and therefore also the skip
force fill, which is an update with value "N/A"), and the guardian bulk
fill. -/
inductive EngineOp where
  | upd : String → String → String → EngineOp
  | guardianFill : EngineOp
deriving DecidableEq, Repr

/-- Apply one engine operation. -/
def applyOp (s : Session) : EngineOp → Session
  | .upd dn fn v => (update_form_field s dn fn v).1
  | .guardianFill => fillGuardianNA s

/-- An operation writes a non-empty value (guardian fill always writes
the non-empty "N/A"). -/
def opValueNonEmpty : EngineOp → Prop
  | .upd _ _ v => v ≠ ""
  | .guardianFill => True

instance : DecidablePred opValueNonEmpty := fun op => by
  cases op <;> simp [opValueNonEmpty] <;> infer_instance

/-- Two lists share no element. -/
def disjointB (a b : List String) : Bool := a.all (fun x => !(b.contains x))

/-- Boolean pairwise disjointness of a list of groups. -/
def pairwiseDisjointB : List (List String) → Bool
  | [] => true
  | g :: gs => gs.all (fun h2 => disjointB g h2) && pairwiseDisjointB gs

/-! ### Concrete sessions used to instantiate the theorems -/

/-- A one-document 청년월세 session whose two fields belong to the same
common-field group and are both empty. -/
def sessTwoEmpty : Session :=
  { category := "청년월세"
    documents := [("위임장",
      { fields := [("delegator.name", ""), ("signature.applicant_name", "")]
        descriptions := [("delegator.name", "위임하는 사람 이름"), ("signature.applicant_name", "서명")]
        filled_count := 0
        total_count := 2 })]
    current_document := some "위임장"
    completed := false
    guardian_checked := false
    guardian_exists := none
    final_confirmation_shown := false
    initial_total_fields := 1 }

/-- A two-document 청년월세 session whose first name-group member is
already answered. -/
def sessGroupFilled : Session :=
  { category := "청년월세"
    documents :=
      [("위임장",
        { fields := [("delegator.name", "홍길동"), ("delegator.birthdate", "")]
          descriptions := [("delegator.name", "위임하는 사람 이름"), ("delegator.birthdate", "생년월일")]
          filled_count := 1
          total_count := 2 }),
       ("대리수령",
        { fields := [("recipient.name", ""), ("extra.info", "")]
          descriptions := [("recipient.name", "수급자 이름"), ("extra.info", "기타")]
          filled_count := 0
          total_count := 2 })]
    current_document := some "위임장"
    completed := false
    guardian_checked := false
    guardian_exists := none
    final_confirmation_shown := false
    initial_total_fields := 3 }

/-- A session with one still-empty guardian field. -/
def sessGuardianEmpty : Session :=
  { category := "전입신고"
    documents := [("신고서",
      { fields := [("guardian.name", ""), ("person.name", "")]
        descriptions := [("guardian.name", "후견인 이름"), ("person.name", "신고인 이름")]
        filled_count := 0
        total_count := 2 })]
    current_document := some "신고서"
    completed := false
    guardian_checked := false
    guardian_exists := none
    final_confirmation_shown := false
    initial_total_fields := 1 }

/-- A session whose only guardian field is already filled while the
guardian question was never answered. -/
def sessGuardianFilled : Session :=
  { category := "전입신고"
    documents := [("신고서",
      { fields := [("guardian.name", "돌봄이"), ("person.name", "")]
        descriptions := [("guardian.name", "후견인 이름"), ("person.name", "신고인 이름")]
        filled_count := 1
        total_count := 2 })]
    current_document := some "신고서"
    completed := false
    guardian_checked := false
    guardian_exists := none
    final_confirmation_shown := false
    initial_total_fields := 1 }

/-- A session with a 11-field document, every field filled with a real
value, and the final confirmation not yet shown. -/
def sessElevenFilled : Session :=
  { category := "전입신고"
    documents := [("신고서",
      { fields :=
          [("f01", "v01"), ("f02", "v02"), ("f03", "v03"), ("f04", "v04"),
           ("f05", "v05"), ("f06", "v06"), ("f07", "v07"), ("f08", "v08"),
           ("f09", "v09"), ("f10", "v10"), ("f11", "v11")]
        descriptions :=
          [("f01", "a01"), ("f02", "a02"), ("f03", "a03"), ("f04", "a04"),
           ("f05", "a05"), ("f06", "a06"), ("f07", "a07"), ("f08", "a08"),
           ("f09", "a09"), ("f10", "a10"), ("f11", "a11")]
        filled_count := 11
        total_count := 11 })]
    current_document := some "신고서"
    completed := false
    guardian_checked := false
    guardian_exists := none
    final_confirmation_shown := false
    initial_total_fields := 11 }

/-- A fully-filled one-field session. -/
def sessOneFilled : Session :=
  { category := "전입신고"
    documents := [("신고서",
      { fields := [("person.name", "김철수")]
        descriptions := [("person.name", "신고인 이름")]
        filled_count := 1
        total_count := 1 })]
    current_document := some "신고서"
    completed := false
    guardian_checked := false
    guardian_exists := none
    final_confirmation_shown := false
    initial_total_fields := 1 }

/-- A one-empty-field session used to exercise the validator. -/
def sessOneEmpty : Session :=
  { category := "전입신고"
    documents := [("신고서",
      { fields := [("person.name", "")]
        descriptions := [("person.name", "신고인 이름")]
        filled_count := 0
        total_count := 1 })]
    current_document := some "신고서"
    completed := false
    guardian_checked := false
    guardian_exists := none
    final_confirmation_shown := false
    initial_total_fields := 1 }

/-- Two documents with unrelated single fields; the second document's
field name does not exist in the current (first) document. -/
def sessTwoDocs : Session :=
  { category := "전입신고"
    documents :=
      [("docA",
        { fields := [("alpha.q", "")]
          descriptions := [("alpha.q", "앞 질문")]
          filled_count := 0
          total_count := 1 }),
       ("docB",
        { fields := [("beta.q", "")]
          descriptions := [("beta.q", "뒤 질문")]
          filled_count := 0
          total_count := 1 })]
    current_document := some "docA"
    completed := false
    guardian_checked := false
    guardian_exists := none
    final_confirmation_shown := false
    initial_total_fields := 2 }

/-- A 청년월세 session where one group value is present in the first
document and the matching member of the second document is empty. -/
def sessPdf : Session :=
  { category := "청년월세"
    documents :=
      [("위임장",
        { fields := [("delegator.name", "홍길동")]
          descriptions := [("delegator.name", "위임하는 사람 이름")]
          filled_count := 1
          total_count := 1 }),
       ("대리수령",
        { fields := [("recipient.name", "")]
          descriptions := [("recipient.name", "수급자 이름")]
          filled_count := 0
          total_count := 1 })]
    current_document := some "위임장"
    completed := false
    guardian_checked := false
    guardian_exists := none
    final_confirmation_shown := false
    initial_total_fields := 1 }

/-- A document holding a complete receive-period block. -/
def sessPeriod : Session :=
  { category := "전입신고"
    documents := [("신고서",
      { fields :=
          [("receive_period.start_year", "2024"), ("receive_period.start_month", "01"),
           ("receive_period.end_year", "2024"), ("receive_period.end_month", "03"),
           ("receive_period.total_months", "")]
        descriptions := []
        filled_count := 4
        total_count := 5 })]
    current_document := some "신고서"
    completed := false
    guardian_checked := false
    guardian_exists := none
    final_confirmation_shown := false
    initial_total_fields := 0 }

/-- Same block with the end before the start. -/
def sessPeriodNeg : Session :=
  { category := "전입신고"
    documents := [("신고서",
      { fields :=
          [("receive_period.start_year", "2024"), ("receive_period.start_month", "05"),
           ("receive_period.end_year", "2024"), ("receive_period.end_month", "01"),
           ("receive_period.total_months", "")]
        descriptions := []
        filled_count := 4
        total_count := 5 })]
    current_document := some "신고서"
    completed := false
    guardian_checked := false
    guardian_exists := none
    final_confirmation_shown := false
    initial_total_fields := 0 }

/-- The first common-field group of the 청년월세 category. -/
def groupNameYouth : List String :=
  ["delegator.name", "recipient.name", "signature.applicant_name", "signature.reporter_name"]

/-- Template documents used to instantiate session initialisation. -/
def docsInitWitness : List (String × (List (String × String) × List (String × String))) :=
  [("위임장",
    ([("delegator.name", "홍길동"), ("signature.applicant_name", "")],
     [("delegator.name", "위임하는 사람 이름"), ("signature.applicant_name", "서명")]))]

/-! ## Helper lemmas about the dict model -/

theorem alookup_mem {β : Type} {l : List (String × β)} {k : String} {v : β}
    (h : alookup l k = some v) : (k, v) ∈ l := by
  induction l with
  | nil => simp [alookup] at h
  | cons p t ih =>
    by_cases hk : p.1 = k
    · have hv : p.2 = v := by simpa [alookup, hk] using h
      have hp : p = (k, v) := by cases p; simp_all
      rw [hp]
      exact List.mem_cons_self _ _
    · have hh : alookup t k = some v := by simpa [alookup, hk] using h
      exact List.mem_cons_of_mem _ (ih hh)

theorem alookup_aset_self {β : Type} {l : List (String × β)} {k : String} {old : β}
    (v : β) (h : alookup l k = some old) : alookup (aset l k v) k = some v := by
  induction l with
  | nil => simp [alookup] at h
  | cons p t ih =>
    by_cases hk : p.1 = k
    · simp [aset, alookup, hk]
    · have hh : alookup t k = some old := by simpa [alookup, hk] using h
      simp [aset, alookup, hk, ih hh]

theorem alookup_aset_ne {β : Type} (l : List (String × β)) {k k' : String}
    (v : β) (h : k' ≠ k) : alookup (aset l k v) k' = alookup l k' := by
  induction l with
  | nil => simp [aset]
  | cons p t ih =>
    by_cases hk : p.1 = k
    · subst hk
      simp [aset, alookup, Ne.symm h, h, ih]
    · by_cases hk' : p.1 = k'
      · simp [aset, alookup, hk, hk', h]
      · simp [aset, alookup, hk, hk', ih]

theorem aset_of_lookup_none {β : Type} {l : List (String × β)} {k : String}
    (v : β) (h : alookup l k = none) : aset l k v = l := by
  induction l with
  | nil => simp [aset]
  | cons p t ih =>
    by_cases hk : p.1 = k
    · simp [alookup, hk] at h
    · have hh : alookup t k = none := by simpa [alookup, hk] using h
      simp [aset, hk, ih hh]

theorem aset_self_of_lookup {β : Type} {l : List (String × β)} {k : String} {v : β}
    (h : alookup l k = some v) : aset l k v = l := by
  induction l with
  | nil => simp [alookup] at h
  | cons p t ih =>
    by_cases hk : p.1 = k
    · have hv : p.2 = v := by simpa [alookup, hk] using h
      cases p
      simp_all [aset]
    · have hh : alookup t k = some v := by simpa [alookup, hk] using h
      simp [aset, hk, ih hh]

theorem aset_aset {β : Type} (l : List (String × β)) (k : String) (a b : β) :
    aset (aset l k a) k b = aset l k b := by
  induction l with
  | nil => simp [aset]
  | cons p t ih =>
    by_cases hk : p.1 = k
    · simp [aset, hk]
    · simp [aset, hk, ih]

theorem aset_keys {β : Type} (l : List (String × β)) (k : String) (v : β) :
    (aset l k v).map Prod.fst = l.map Prod.fst := by
  induction l with
  | nil => simp [aset]
  | cons p t ih =>
    by_cases hk : p.1 = k
    · simp [aset, hk]
    · simp [aset, hk, ih]

theorem countNE_cons (p : String × String) (l : List (String × String)) :
    countNE (p :: l) = (if p.2 = "" then 0 else 1) + countNE l := by
  by_cases hp : p.2 = "" <;> simp [countNE, List.filter_cons, hp] <;> omega

theorem countNE_aset {l : List (String × String)} {k : String} {old : String}
    (v : String) (h : alookup l k = some old) :
    (countNE (aset l k v) : Int) =
      (countNE l : Int) + (if v ≠ "" then 1 else 0) - (if old ≠ "" then 1 else 0) := by
  induction l with
  | nil => simp [alookup] at h
  | cons p t ih =>
    by_cases hk : p.1 = k
    · have hold : p.2 = old := by simpa [alookup, hk] using h
      have ha : aset (p :: t) k v = (k, v) :: t := by simp [aset, hk]
      rw [ha, countNE_cons, countNE_cons, ← hold]
      by_cases hv : v = "" <;> by_cases ho : p.2 = "" <;>
        simp [hv, ho] <;> push_cast <;> omega
    · have hh : alookup t k = some old := by simpa [alookup, hk] using h
      have ha : aset (p :: t) k v = p :: aset t k v := by simp [aset, hk]
      have iv := ih hh
      rw [ha, countNE_cons, countNE_cons]
      by_cases hp : p.2 = "" <;> simp only [hp, if_pos, if_neg, if_false] <;>
        push_cast at iv ⊢ <;> simp_all <;> omega

theorem alookup_dset (l : List (String × DocState)) (dn dn' : String)
    (f : DocState → DocState) :
    alookup (dset l dn f) dn' =
      if dn' = dn then (alookup l dn).map f else alookup l dn' := by
  induction l with
  | nil => simp [alookup, dset]
  | cons p t ih =>
    by_cases hdn : p.1 = dn
    · by_cases hdn' : dn' = dn
      · simp [alookup, dset, hdn, hdn']
      · have hne : dn ≠ dn' := fun e => hdn' e.symm
        simp [alookup, dset, hdn, hdn', hne]
    · by_cases hdn' : p.1 = dn'
      · have hne : dn' ≠ dn := by rw [← hdn']; exact fun e => hdn e
        simp [alookup, dset, hdn, hdn', hne]
      · simp [alookup, dset, hdn, hdn', ih]

theorem setDoc_lookup (s : Session) (dn : String) (f : DocState → DocState)
    (dn' : String) :
    alookup (setDoc s dn f).documents dn' =
      if dn' = dn then (alookup s.documents dn).map f else alookup s.documents dn' := by
  simp [setDoc, alookup_dset]

theorem mem_dset {l : List (String × DocState)} {dn : String}
    {f : DocState → DocState} {p : String × DocState} (h : p ∈ dset l dn f) :
    p ∈ l ∨ ∃ dd, alookup l dn = some dd ∧ p = (dn, f dd) := by
  induction l with
  | nil => simp [dset] at h
  | cons q t ih =>
    by_cases hq : q.1 = dn
    · rw [dset, if_pos hq] at h
      rcases List.mem_cons.mp h with h1 | h1
      · right
        exact ⟨q.2, by simp [alookup, hq], by rw [h1, hq]⟩
      · exact Or.inl (List.mem_cons_of_mem _ h1)
    · rw [dset, if_neg hq] at h
      rcases List.mem_cons.mp h with h1 | h1
      · exact Or.inl (h1 ▸ List.mem_cons_self _ _)
      · rcases ih h1 with h2 | ⟨dd, hdd, hp⟩
        · exact Or.inl (List.mem_cons_of_mem _ h2)
        · exact Or.inr ⟨dd, by simp [alookup, hq, hdd], hp⟩

theorem dset_self {l : List (String × DocState)} {dn : String} {dd : DocState}
    {f : DocState → DocState} (h : alookup l dn = some dd) (hf : f dd = dd) :
    dset l dn f = l := by
  induction l with
  | nil => simp [alookup] at h
  | cons q t ih =>
    by_cases hq : q.1 = dn
    · have : q.2 = dd := by simpa [alookup, hq] using h
      cases q
      simp_all [dset]
    · have hh : alookup t dn = some dd := by simpa [alookup, hq] using h
      simp [dset, hq, ih hh]

/-! ## Claim C5: derived month count -/

/-- C5 (confirmed): when a date-named field with a dotted prefix p is
updated on a document carrying all five period fields of p, and the four
start/end parts are non-empty and parse as integers, the derived field
p.total_months is written as the decimal string of
(end_year - start_year) * 12 + (end_month - start_month) clamped to 0
from below, and the document's filled count grows by one exactly when the
derived field was previously empty; when some part does not parse as an
integer, the session is returned entirely unchanged (the source catches
the ValueError), so no exception surfaces and the derived field keeps its
value. -/
theorem C5_total_months :
    (∀ (s : Session) (dn fn pfx : String) (dd : DocState)
        (syV smV eyV emV oldT : String) (sy sm ey em : Int),
      alookup s.documents dn = some dd →
      dateFieldPatterns.any (fun pat => strContains fn pat) = true →
      rsplitPrefix fn = some pfx →
      alookup dd.fields (pfx ++ ".start_year") = some syV →
      alookup dd.fields (pfx ++ ".start_month") = some smV →
      alookup dd.fields (pfx ++ ".end_year") = some eyV →
      alookup dd.fields (pfx ++ ".end_month") = some emV →
      alookup dd.fields (pfx ++ ".total_months") = some oldT →
      pythonInt syV = some sy → pythonInt smV = some sm →
      pythonInt eyV = some ey → pythonInt emV = some em →
      ∃ dd2, alookup (auto_calculate_period s dn fn).documents dn = some dd2 ∧
        alookup dd2.fields (pfx ++ ".total_months") =
          some (pyStrInt (if (ey - sy) * 12 + (em - sm) < 0 then 0
                          else (ey - sy) * 12 + (em - sm))) ∧
        dd2.filled_count = dd.filled_count + (if oldT = "" then 1 else 0)) ∧
    (∀ (s : Session) (dn fn pfx : String) (dd : DocState),
      alookup s.documents dn = some dd →
      rsplitPrefix fn = some pfx →
      (pythonInt ((alookup dd.fields (pfx ++ ".start_year")).getD "") = none ∨
       pythonInt ((alookup dd.fields (pfx ++ ".start_month")).getD "") = none ∨
       pythonInt ((alookup dd.fields (pfx ++ ".end_year")).getD "") = none ∨
       pythonInt ((alookup dd.fields (pfx ++ ".end_month")).getD "") = none) →
      auto_calculate_period s dn fn = s) := by
  have hempty : pythonInt "" = none := rfl
  constructor
  · intro s dn fn pfx dd syV smV eyV emV oldT sy sm ey em
    intro hdd hpat hpfx hsy hsm hey hem htm hpsy hpsm hpey hpem
    have hsyne : syV ≠ "" := fun he => by rw [he, hempty] at hpsy; cases hpsy
    have hsmne : smV ≠ "" := fun he => by rw [he, hempty] at hpsm; cases hpsm
    have heyne : eyV ≠ "" := fun he => by rw [he, hempty] at hpey; cases hpey
    have hemne : emV ≠ "" := fun he => by rw [he, hempty] at hpem; cases hpem
    have hcd : calcDoc fn dd = { dd with
        fields := aset dd.fields (pfx ++ ".total_months")
          (pyStrInt (if (ey - sy) * 12 + (em - sm) < 0 then 0
                     else (ey - sy) * 12 + (em - sm)))
        filled_count := dd.filled_count + (if oldT = "" then 1 else 0) } := by
      simp only [calcDoc, hpat, hpfx, hsy, hsm, hey, hem, htm,
        Option.isSome_some, Option.getD_some, hsyne, hsmne, heyne, hemne,
        hpsy, hpsm, hpey, hpem, not_true, and_self, if_false, ite_false,
        or_self, or_false, false_or, if_true, ite_true, not_false_iff]
    refine ⟨calcDoc fn dd, ?_, ?_, ?_⟩
    · simp only [auto_calculate_period, hdd]
      rw [setDoc_lookup]
      simp [hdd]
    · rw [hcd]
      exact alookup_aset_self _ htm
    · rw [hcd]
  · intro s dn fn pfx dd hdd hpfx hbad
    have hcd : calcDoc fn dd = dd := by
      unfold calcDoc
      by_cases hpat : dateFieldPatterns.any (fun pat => strContains fn pat) = true
      · simp only [hpat, hpfx, not_true, if_false, ite_false]
        by_cases hall : ((alookup dd.fields (pfx ++ ".start_year")).isSome ∧
            (alookup dd.fields (pfx ++ ".start_month")).isSome ∧
            (alookup dd.fields (pfx ++ ".end_year")).isSome ∧
            (alookup dd.fields (pfx ++ ".end_month")).isSome ∧
            (alookup dd.fields (pfx ++ ".total_months")).isSome)
        · simp only [hall, not_true, if_false, ite_false]
          by_cases hemp : ((alookup dd.fields (pfx ++ ".start_year")).getD "" = "" ∨
              (alookup dd.fields (pfx ++ ".start_month")).getD "" = "" ∨
              (alookup dd.fields (pfx ++ ".end_year")).getD "" = "" ∨
              (alookup dd.fields (pfx ++ ".end_month")).getD "" = "")
          · simp [hemp]
          · simp only [hemp, if_false, ite_false]
            rcases o1 : pythonInt ((alookup dd.fields (pfx ++ ".start_year")).getD "") with _ | i1 <;>
              rcases o2 : pythonInt ((alookup dd.fields (pfx ++ ".start_month")).getD "") with _ | i2 <;>
                rcases o3 : pythonInt ((alookup dd.fields (pfx ++ ".end_year")).getD "") with _ | i3 <;>
                  rcases o4 : pythonInt ((alookup dd.fields (pfx ++ ".end_month")).getD "") with _ | i4 <;>
                    simp_all
        · simp [hall]
      · simp [hpat]
    simp only [auto_calculate_period, hdd]
    show { s with documents := dset s.documents dn (calcDoc fn) } = s
    rw [dset_self hdd hcd]

/-- C5 witness: start 2024-01 / end 2024-03 yields "2" and increments the
filled count of the previously-empty derived field; start 2024-05 / end
2024-01 clamps to "0". -/
theorem C5_total_months_witness :
    pythonInt "2024" = some 2024 ∧
    (∃ dd2,
      alookup (auto_calculate_period sessPeriod "신고서"
        "receive_period.start_month").documents "신고서" = some dd2 ∧
      alookup dd2.fields "receive_period.total_months" = some "2" ∧
      dd2.filled_count = 5) ∧
    (∃ dd2,
      alookup (auto_calculate_period sessPeriodNeg "신고서"
        "receive_period.end_month").documents "신고서" = some dd2 ∧
      alookup dd2.fields "receive_period.total_months" = some "0" ∧
      dd2.filled_count = 5) := by
  refine ⟨by decide, ?_, ?_⟩
  · obtain ⟨dd2, h1, h2, h3⟩ :=
      C5_total_months.1 sessPeriod "신고서" "receive_period.start_month" "receive_period"
        _ "2024" "01" "2024" "03" "" 2024 1 2024 3
        rfl (by decide) (by decide) (by decide) (by decide) (by decide) (by decide)
        (by decide) (by decide) (by decide) (by decide) (by decide)
    rw [show ("receive_period" ++ ".total_months" : String) = "receive_period.total_months"
      from by decide] at h2
    refine ⟨dd2, h1, ?_, ?_⟩
    · rw [h2]
      decide
    · rw [h3]
      decide
  · obtain ⟨dd2, h1, h2, h3⟩ :=
      C5_total_months.1 sessPeriodNeg "신고서" "receive_period.end_month" "receive_period"
        _ "2024" "05" "2024" "01" "" 2024 5 2024 1
        rfl (by decide) (by decide) (by decide) (by decide) (by decide) (by decide)
        (by decide) (by decide) (by decide) (by decide) (by decide)
    rw [show ("receive_period" ++ ".total_months" : String) = "receive_period.total_months"
      from by decide] at h2
    refine ⟨dd2, h1, ?_, ?_⟩
    · rw [h2]
      decide
    · rw [h3]
      decide

/-! ## Non-emptiness of rendered integers -/

theorem pyStrNatCore_length (fuel : Nat) : ∀ (n : Nat) (acc : List Char),
    acc.length ≤ (pyStrNatCore fuel n acc).length := by
  induction fuel with
  | zero => intro n acc; simp [pyStrNatCore]
  | succ f ih =>
    intro n acc
    by_cases hn : n = 0
    · simp [pyStrNatCore, hn]
    · simp only [pyStrNatCore, hn, if_neg, if_false]
      calc acc.length ≤ (Char.ofNat (48 + n % 10) :: acc).length := by simp
        _ ≤ _ := ih _ _

theorem pyStrNat_ne_empty (n : Nat) : pyStrNat n ≠ "" := by
  by_cases hn : n = 0
  · subst hn
    decide
  · simp only [pyStrNat, hn, if_neg, if_false]
    intro h
    have h1 : pyStrNatCore (n + 1) n [] =
        pyStrNatCore n (n / 10) [Char.ofNat (48 + n % 10)] := by
      simp [pyStrNatCore, hn]
    have h2 := pyStrNatCore_length n (n / 10) [Char.ofNat (48 + n % 10)]
    have h3 : (pyStrNatCore (n + 1) n []).length = 0 := by
      have hd := congrArg String.data h
      simp only [String.data] at hd
      simp [hd]
    rw [h1] at h3
    simp at h2
    omega

theorem pyStrInt_ne_empty (n : Int) : pyStrInt n ≠ "" := by
  unfold pyStrInt
  split
  · intro h
    have hd := congrArg String.data h
    rw [String.data_append] at hd
    simp [String.data] at hd
  · exact pyStrNat_ne_empty _

/-! ## A case characterization of the period calculator -/

/-- calcDoc either leaves the document unchanged or performs exactly one
non-empty write into the total-months field, bumping the filled count
when that field was empty. -/
theorem calcDoc_cases (fn : String) (dd : DocState) :
    calcDoc fn dd = dd ∨
    ∃ pfx oldT val, alookup dd.fields (pfx ++ ".total_months") = some oldT ∧ val ≠ "" ∧
      calcDoc fn dd =
        { dd with fields := aset dd.fields (pfx ++ ".total_months") val
                  filled_count := dd.filled_count + (if oldT = "" then 1 else 0) } := by
  unfold calcDoc
  by_cases hpat : dateFieldPatterns.any (fun pat => strContains fn pat) = true
  · simp only [hpat, not_true, if_false, ite_false]
    rcases hpfx : rsplitPrefix fn with _ | pfx
    · exact Or.inl rfl
    · by_cases hall : ((alookup dd.fields (pfx ++ ".start_year")).isSome ∧
          (alookup dd.fields (pfx ++ ".start_month")).isSome ∧
          (alookup dd.fields (pfx ++ ".end_year")).isSome ∧
          (alookup dd.fields (pfx ++ ".end_month")).isSome ∧
          (alookup dd.fields (pfx ++ ".total_months")).isSome)
      · simp only [hall, not_true, if_false, ite_false]
        by_cases hemp : ((alookup dd.fields (pfx ++ ".start_year")).getD "" = "" ∨
            (alookup dd.fields (pfx ++ ".start_month")).getD "" = "" ∨
            (alookup dd.fields (pfx ++ ".end_year")).getD "" = "" ∨
            (alookup dd.fields (pfx ++ ".end_month")).getD "" = "")
        · simp [hemp]
        · simp only [hemp, if_false, ite_false]
          rcases o1 : pythonInt ((alookup dd.fields (pfx ++ ".start_year")).getD "") with _ | i1
          · exact Or.inl rfl
          rcases o2 : pythonInt ((alookup dd.fields (pfx ++ ".start_month")).getD "") with _ | i2
          · exact Or.inl rfl
          rcases o3 : pythonInt ((alookup dd.fields (pfx ++ ".end_year")).getD "") with _ | i3
          · exact Or.inl rfl
          rcases o4 : pythonInt ((alookup dd.fields (pfx ++ ".end_month")).getD "") with _ | i4
          · exact Or.inl rfl
          right
          obtain ⟨oldT, hold⟩ := Option.isSome_iff_exists.mp hall.2.2.2.2
          refine ⟨pfx, oldT, pyStrInt (if (i3 - i1) * 12 + (i4 - i2) < 0 then 0
                              else (i3 - i1) * 12 + (i4 - i2)), hold,
            pyStrInt_ne_empty _, ?_⟩
          simp [hold]
      · simp [hall]
  · simp [hpat]

/-! ## Claim C4: the filled-count invariant -/

theorem autoFillStep_invariant (src v f : String) (hv : v ≠ "") (dd : DocState)
    (h : dd.filled_count = (countNE dd.fields : Int)) :
    (autoFillStep src v dd f).filled_count =
      (countNE (autoFillStep src v dd f).fields : Int) := by
  unfold autoFillStep
  by_cases hf : f = src
  · simpa [hf]
  · simp only [hf, if_neg, if_false, ite_false]
    rcases hold : alookup dd.fields f with _ | old
    · simpa
    · by_cases ho : old = ""
      · have hc := countNE_aset v hold
        simp only [ho, ne_eq, not_true_eq_false, ite_false, if_false,
          Bool.false_eq_true]
        rw [h, hc, ho]
        simp [hv]
      · simpa [ho]

theorem autoFillDoc_invariant (src v : String) (hv : v ≠ "") :
    ∀ (related : List String) (dd : DocState),
    dd.filled_count = (countNE dd.fields : Int) →
    (autoFillDoc related src v dd).filled_count =
      (countNE (autoFillDoc related src v dd).fields : Int) := by
  intro related
  induction related with
  | nil => intro dd h; simpa [autoFillDoc]
  | cons f fs ih =>
    intro dd h
    have hstep : autoFillDoc (f :: fs) src v dd =
        autoFillDoc fs src v (autoFillStep src v dd f) := by
      simp [autoFillDoc]
    rw [hstep]
    exact ih _ (autoFillStep_invariant src v f hv dd h)

theorem auto_fill_invariant (s : Session) (src v : String) (hv : v ≠ "")
    (h : sessionInvariant s) :
    sessionInvariant (auto_fill_common_fields s src v) := by
  unfold auto_fill_common_fields
  rcases hg : (categoryGroups s.category).find? (fun g => g.contains src) with _ | related <;>
    simp only [hg]
  · exact h
  · intro p hp
    simp only [List.mem_map] at hp
    obtain ⟨q, hq, rfl⟩ := hp
    exact autoFillDoc_invariant src v hv related q.2 (h q hq)

theorem sessionInvariant_setDoc {s : Session} {dn : String} {f : DocState → DocState}
    (h : sessionInvariant s)
    (hf : ∀ dd, alookup s.documents dn = some dd →
      (f dd).filled_count = (countNE (f dd).fields : Int)) :
    sessionInvariant (setDoc s dn f) := by
  intro p hp
  rcases mem_dset hp with h1 | ⟨dd, hdd, rfl⟩
  · exact h p h1
  · exact hf dd hdd

theorem calc_invariant (s : Session) (dn fn : String) (h : sessionInvariant s) :
    sessionInvariant (auto_calculate_period s dn fn) := by
  unfold auto_calculate_period
  rcases hdd : alookup s.documents dn with _ | dd
  · simp only [hdd]
    exact h
  · simp only [hdd]
    apply sessionInvariant_setDoc h
    intro dd' hdd'
    have hinv : dd'.filled_count = (countNE dd'.fields : Int) :=
      h (dn, dd') (alookup_mem hdd')
    rcases calcDoc_cases fn dd' with he | ⟨pfx, oldT, val, hold, hvne, he⟩ <;> rw [he]
    · exact hinv
    · have hc := countNE_aset val hold
      show dd'.filled_count + _ = _
      rw [hinv, hc]
      by_cases ho : oldT = "" <;> simp [ho, hvne]

theorem update_invariant (s : Session) (dn fn v : String) (hv : v ≠ "")
    (h : sessionInvariant s) :
    sessionInvariant (update_form_field s dn fn v).1 := by
  unfold update_form_field
  rcases hdd : alookup s.documents dn with _ | dd
  · simp only [hdd]
    exact h
  · simp only [hdd]
    rcases hold : alookup dd.fields fn with _ | old
    · simp only [hold]
      exact h
    · simp only [hold]
      apply calc_invariant
      apply auto_fill_invariant _ _ _ hv
      apply sessionInvariant_setDoc h
      intro dd' hdd'
      rw [hdd] at hdd'
      obtain rfl : dd = dd' := by injection hdd'
      have hinv : dd.filled_count = (countNE dd.fields : Int) :=
        h (dn, dd) (alookup_mem hdd)
      have hc := countNE_aset v hold
      show dd.filled_count + _ = _
      rw [hinv, hc]
      by_cases ho : old = "" <;> simp [ho, hv]

theorem countNE_guardMap : ∀ l : List (String × String),
    countNE (l.map (fun q =>
      if strContains q.1 guardianPattern && q.2 == "" then (q.1, "N/A") else q)) =
    countNE l + (l.filter (fun q => strContains q.1 guardianPattern && q.2 == "")).length := by
  intro l
  induction l with
  | nil => simp [countNE]
  | cons q t ih =>
    by_cases hq : (strContains q.1 guardianPattern && q.2 == "") = true
    · have hq2 : q.2 = "" := by
        rcases Bool.and_eq_true_iff.mp hq with ⟨_, h2⟩
        simpa using h2
      simp only [List.map_cons, hq, if_pos, List.filter_cons, if_true]
      rw [countNE_cons, countNE_cons, ih]
      simp [hq2, hq]
      omega
    · simp only [List.map_cons, hq, if_neg, if_false, List.filter_cons, Bool.false_eq_true,
        ite_false]
      rw [countNE_cons, countNE_cons, ih]
      by_cases h2 : q.2 = "" <;> simp [h2, hq] <;> omega

theorem guardianFill_invariant (s : Session) (h : sessionInvariant s) :
    sessionInvariant (fillGuardianNA s) := by
  intro p hp
  simp only [fillGuardianNA, List.mem_map] at hp
  obtain ⟨q, hq, rfl⟩ := hp
  have hinv := h q hq
  simp only [fillGuardianDoc]
  rw [countNE_guardMap, hinv]
  push_cast
  ring

theorem countNE_blank : ∀ l : List (String × String),
    countNE (l.map (fun q => (q.1, ""))) = 0 := by
  intro l
  induction l with
  | nil => simp [countNE]
  | cons q t ih => simpa [countNE_cons] using ih

theorem init_invariant (cat : String)
    (docs : List (String × (List (String × String) × List (String × String)))) :
    sessionInvariant (init_form_session cat docs) := by
  intro p hp
  simp only [init_form_session, List.mem_map] at hp
  obtain ⟨q, hq, rfl⟩ := hp
  show (0 : Int) = _
  rw [countNE_blank]
  simp

theorem foldOps_invariant : ∀ (ops : List EngineOp) (s : Session),
    sessionInvariant s → (∀ op ∈ ops, opValueNonEmpty op) →
    sessionInvariant (ops.foldl applyOp s) := by
  intro ops
  induction ops with
  | nil => intro s h _; simpa
  | cons op rest ih =>
    intro s h hops
    rw [List.foldl_cons]
    apply ih
    · cases op with
      | upd dn fn v =>
        have hv : v ≠ "" := hops _ (List.mem_cons_self _ _)
        exact update_invariant s dn fn v hv h
      | guardianFill => exact guardianFill_invariant s h
    · intro o ho
      exact hops o (List.mem_cons_of_mem _ ho)

/-- C4 (corrected): in every session reachable from a freshly initialized
session through update_form_field calls carrying a non-empty value (which
include common-field propagation, the derived-period calculation, and the
skip force fill, an update with "N/A") and through the guardian bulk
fill, each document's filled_count equals its number of non-empty field
values.  The claim as frozen also admits empty-string updates and the
pre-export back-fill, and both break the invariant (see the
counterexample): propagating an empty value increments counts without
filling anything, and fill_common_fields_for_pdf writes values without
touching the counts. -/
theorem C4_filled_count_invariant (cat : String)
    (docs : List (String × (List (String × String) × List (String × String))))
    (ops : List EngineOp) (hops : ∀ op ∈ ops, opValueNonEmpty op) :
    sessionInvariant (ops.foldl applyOp (init_form_session cat docs)) :=
  foldOps_invariant ops _ (init_invariant cat docs) hops

/-- C4 counterexample: the claim admits update_form_field with the empty
string and the pre-export back-fill; the first breaks the invariant by
propagating "" into an empty group member while incrementing the count,
the second by writing a group value without adjusting the count. -/
theorem C4_invariant_violations :
    sessionInvariant sessTwoEmpty ∧
    ¬ sessionInvariant (update_form_field sessTwoEmpty "위임장" "delegator.name" "").1 ∧
    sessionInvariant sessPdf ∧
    ¬ sessionInvariant (fill_common_fields_for_pdf sessPdf) := by
  refine ⟨?_, ?_, ?_, ?_⟩ <;> unfold sessionInvariant <;> decide

/-- C4 witness: a non-empty update on a fresh 청년월세 session keeps the
invariant. -/
theorem C4_filled_count_invariant_witness :
    opValueNonEmpty (EngineOp.upd "위임장" "delegator.name" "홍길동") ∧
    sessionInvariant
      ([EngineOp.upd "위임장" "delegator.name" "홍길동"].foldl applyOp
        (init_form_session "청년월세" docsInitWitness)) :=
  ⟨by decide,
   C4_filled_count_invariant "청년월세" docsInitWitness
     [EngineOp.upd "위임장" "delegator.name" "홍길동"] (by decide)⟩

/-! ## Claim C7: guardian pseudo-field priority -/

theorem listInside_of_starts {p l : List Char} (h : listStarts p l = true) :
    listInside p l = true := by
  cases l with
  | nil =>
    cases p with
    | nil => simp [listInside]
    | cons a as => simp [listStarts] at h
  | cons b bs => simp [listInside, h]

/-- C7 (corrected): when some document still holds an EMPTY field whose
identifier carries the "guardian." prefix and the guardian question was
never answered, unfilled-field resolution returns exactly the single
synthetic __guardian_exists__ candidate.  (The claim as frozen omits the
emptiness requirement; the source additionally demands an empty guardian
field, see the counterexample where the only guardian field is already
filled and an ordinary candidate is returned instead.) -/
theorem C7_guardian_priority (s : Session) (dn f : String) (dd : DocState)
    (hdd : alookup s.documents dn = some dd)
    (hf : alookup dd.fields f = some "")
    (hpfx : strStarts f "guardian." = true)
    (hchk : s.guardian_checked = false) :
    ∃ d, get_unfilled_fields s = [⟨d, "__guardian_exists__", "후견인이 있으신가요?"⟩] := by
  have hmem : (dn, dd) ∈ s.documents := alookup_mem hdd
  have hmemf : (f, "") ∈ dd.fields := alookup_mem hf
  have hcont : strContains f guardianPattern = true := listInside_of_starts hpfx
  have hHas : hasGuardianFields s = true := by
    unfold hasGuardianFields
    rw [List.any_eq_true]
    refine ⟨(dn, dd), hmem, ?_⟩
    rw [List.any_eq_true]
    exact ⟨(f, ""), hmemf, hcont⟩
  have hcand : (⟨dn, f, (alookup dd.descriptions f).getD f⟩ : Candidate) ∈
      guardianEmptyFields s := by
    unfold guardianEmptyFields
    rw [List.mem_flatMap]
    refine ⟨(dn, dd), hmem, ?_⟩
    rw [List.mem_map]
    refine ⟨(f, ""), ?_, rfl⟩
    rw [List.mem_filter]
    exact ⟨hmemf, by simp [hcont]⟩
  obtain ⟨c, rest, hgf⟩ : ∃ c rest, guardianEmptyFields s = c :: rest := by
    rcases hgf : guardianEmptyFields s with _ | ⟨c, rest⟩
    · rw [hgf] at hcand
      cases hcand
    · exact ⟨c, rest, rfl⟩
  refine ⟨c.document, ?_⟩
  unfold get_unfilled_fields
  simp [hgf, hHas, hchk]

/-- C7 counterexample: a session whose only guardian-prefixed field is
already filled while the guardian state is unchecked; resolution returns
the ordinary person.name candidate, not the pseudo-field the claim
demands. -/
theorem C7_filled_guardian_no_pseudo :
    strStarts "guardian.name" "guardian." = true ∧
    sessGuardianFilled.guardian_checked = false ∧
    hasGuardianFields sessGuardianFilled = true ∧
    get_unfilled_fields sessGuardianFilled =
      [⟨"신고서", "person.name", "신고인 이름"⟩] := by
  refine ⟨by decide, rfl, by decide, by decide⟩

/-- C7 witness: with an empty guardian.name field the pseudo-question is
the only candidate. -/
theorem C7_guardian_priority_witness :
    strStarts "guardian.name" "guardian." = true ∧
    ∃ d, get_unfilled_fields sessGuardianEmpty =
      [⟨d, "__guardian_exists__", "후견인이 있으신가요?"⟩] :=
  ⟨by decide,
   C7_guardian_priority sessGuardianEmpty "신고서" "guardian.name" _ rfl (by decide)
     (by decide) rfl⟩

/-! ## Claim C2: group deduplication in unfilled-field resolution -/

theorem table_groups_disjoint (cat : String) :
    pairwiseDisjointB (categoryGroups cat) = true := by
  unfold categoryGroups
  rcases h : alookup COMMON_FIELD_GROUPS_BY_CATEGORY cat with _ | v
  · decide
  · have hmem := alookup_mem h
    simp only [COMMON_FIELD_GROUPS_BY_CATEGORY, List.mem_cons, List.mem_singleton,
      Prod.mk.injEq, List.not_mem_nil, or_false] at hmem
    rcases hmem with ⟨_, rfl⟩ | ⟨_, rfl⟩ | ⟨_, rfl⟩ | ⟨_, rfl⟩ | ⟨_, rfl⟩ <;> decide

theorem pseudo_not_in_groups (cat : String) {g : List String}
    (hg : g ∈ categoryGroups cat) : g.contains "__guardian_exists__" = false := by
  have hall : (categoryGroups cat).all
      (fun g2 => !(g2.contains "__guardian_exists__")) = true := by
    unfold categoryGroups
    rcases h : alookup COMMON_FIELD_GROUPS_BY_CATEGORY cat with _ | v
    · decide
    · have hmem := alookup_mem h
      simp only [COMMON_FIELD_GROUPS_BY_CATEGORY, List.mem_cons, List.mem_singleton,
        Prod.mk.injEq, List.not_mem_nil, or_false] at hmem
      rcases hmem with ⟨_, rfl⟩ | ⟨_, rfl⟩ | ⟨_, rfl⟩ | ⟨_, rfl⟩ | ⟨_, rfl⟩ <;> decide
  have h2 := List.all_eq_true.mp hall g hg
  simpa using h2

theorem pairwiseDisjointB_apart {groups : List (List String)}
    (hd : pairwiseDisjointB groups = true) :
    ∀ {i j : Nat} {gi gj : List String} {f : String}, i ≠ j →
      groups.get? i = some gi → groups.get? j = some gj →
      f ∈ gi → f ∈ gj → False := by
  induction groups with
  | nil => intro i j gi gj f _ hi; simp at hi
  | cons g gs ih =>
    have hd1 : (gs.all (fun h2 => disjointB g h2)) = true :=
      (Bool.and_eq_true_iff.mp hd).1
    have hd2 : pairwiseDisjointB gs = true := (Bool.and_eq_true_iff.mp hd).2
    intro i j gi gj f hne hi hj hfi hfj
    match i, j with
    | 0, 0 => exact hne rfl
    | 0, j + 1 =>
      obtain rfl : g = gi := by simpa using hi
      have hjm : gj ∈ gs := List.get?_mem hj
      have hdis := List.all_eq_true.mp hd1 gj hjm
      unfold disjointB at hdis
      have hnc := List.all_eq_true.mp hdis f hfi
      have hcf : gj.contains f = true := List.elem_eq_true_of_mem hfj
      rw [hcf] at hnc
      simp at hnc
    | i + 1, 0 =>
      obtain rfl : g = gj := by simpa using hj
      have him : gi ∈ gs := List.get?_mem hi
      have hdis := List.all_eq_true.mp hd1 gi him
      unfold disjointB at hdis
      have hnc := List.all_eq_true.mp hdis f hfj
      have hcf : gi.contains f = true := List.elem_eq_true_of_mem hfi
      rw [hcf] at hnc
      simp at hnc
    | i + 1, j + 1 =>
      exact ih hd2 (fun e => hne (congrArg (· + 1) e)) (by simpa using hi) (by simpa using hj) hfi hfj

theorem findGroupIdx_mem {groups : List (List String)}
    (hd : pairwiseDisjointB groups = true) :
    ∀ {g : List String} {f : String}, g ∈ groups → f ∈ g →
      ∃ i, findGroupIdx groups f = some i ∧ groups.get? i = some g := by
  induction groups with
  | nil => intro g f hg; simp at hg
  | cons g0 gs ih =>
    intro g f hg hf
    have hd1 : (gs.all (fun h2 => disjointB g0 h2)) = true :=
      (Bool.and_eq_true_iff.mp hd).1
    have hd2 : pairwiseDisjointB gs = true := (Bool.and_eq_true_iff.mp hd).2
    by_cases h0 : g0.contains f
    · refine ⟨0, by simp only [findGroupIdx]; rw [if_pos h0], ?_⟩
      rcases List.mem_cons.mp hg with rfl | hgs
      · rfl
      · exfalso
        have hdis := List.all_eq_true.mp hd1 g hgs
        unfold disjointB at hdis
        have hnc := List.all_eq_true.mp hdis f (List.mem_of_elem_eq_true h0)
        have hcf : g.contains f = true := List.elem_eq_true_of_mem hf
        rw [hcf] at hnc
        simp at hnc
    · rcases List.mem_cons.mp hg with rfl | hgs
      · exact absurd (List.elem_eq_true_of_mem hf) h0
      · obtain ⟨i, hfi, hget⟩ := ih hd2 hgs hf
        exact ⟨i + 1, by simp only [findGroupIdx]; rw [if_neg h0, hfi]; rfl, by simpa using hget⟩

theorem dedup_mem {filled : List Nat} :
    ∀ {raws : List RawUnfilled} {proc : List Nat} {c : Candidate},
    c ∈ dedupUnfilled filled raws proc →
    ∃ r ∈ raws, candOfRaw r = c ∧
      (∀ gi, r.group_idx = some gi → filled.contains gi = false) := by
  intro raws
  induction raws with
  | nil => intro proc c h; simp [dedupUnfilled] at h
  | cons r rs ih =>
    intro proc c h
    rcases hg : r.group_idx with _ | gi
    · simp only [dedupUnfilled, hg] at h
      rcases List.mem_cons.mp h with rfl | h1
      · exact ⟨r, List.mem_cons_self _ _, rfl, by simp [hg]⟩
      · obtain ⟨r2, hr2, he, hfil⟩ := ih h1
        exact ⟨r2, List.mem_cons_of_mem _ hr2, he, hfil⟩
    · simp only [dedupUnfilled, hg] at h
      by_cases hfil : filled.contains gi = true
      · rw [if_pos hfil] at h
        obtain ⟨r2, hr2, he, hf2⟩ := ih h
        exact ⟨r2, List.mem_cons_of_mem _ hr2, he, hf2⟩
      · rw [if_neg hfil] at h
        by_cases hproc : proc.contains gi
        · rw [if_pos hproc] at h
          obtain ⟨r2, hr2, he, hf2⟩ := ih h
          exact ⟨r2, List.mem_cons_of_mem _ hr2, he, hf2⟩
        · rw [if_neg hproc] at h
          rcases List.mem_cons.mp h with rfl | h1
          · refine ⟨r, List.mem_cons_self _ _, rfl, ?_⟩
            intro gj hgj
            rw [hg] at hgj
            obtain rfl : gi = gj := by injection hgj
            exact Bool.not_eq_true _ ▸ (by simpa using hfil)
          · obtain ⟨r2, hr2, he, hf2⟩ := ih h1
            exact ⟨r2, List.mem_cons_of_mem _ hr2, he, hf2⟩

theorem collect_gidx {s : Session} {groups : List (List String)}
    {r : RawUnfilled} (h : r ∈ collectUnfilled s groups) :
    r.group_idx = findGroupIdx groups r.field := by
  unfold collectUnfilled at h
  rw [List.mem_flatMap] at h
  obtain ⟨p, _, hp⟩ := h
  rw [List.mem_filterMap] at hp
  obtain ⟨q, _, hq⟩ := hp
  by_cases h1 : autoCalculatedPatterns.any (fun pat => strContains q.1 pat)
  · rw [if_pos h1] at hq
    cases hq
  · rw [if_neg h1] at hq
    by_cases h2 : (s.guardian_checked && s.guardian_exists == some false
        && strContains q.1 guardianPattern) = true
    · rw [if_pos h2] at hq
      cases hq
    · rw [if_neg h2] at hq
      by_cases h3 : q.2 = ""
      · rw [if_pos h3] at hq
        obtain rfl : _ = r := Option.some.inj hq
        rfl
      · rw [if_neg h3] at hq
        cases hq

theorem getD_of_get? {α : Type} {l : List α} {n : Nat} {a : α} (d : α)
    (h : l.get? n = some a) : l.getD n d = a := by
  rw [List.get?_eq_getElem?] at h
  simp [List.getD, h]

theorem mem_filledGroupIdxs {s : Session} {groups : List (List String)}
    {ig : Nat} {g : List String} (hget : groups.get? ig = some g)
    (hfil : groupFilled s g = true) : ig ∈ filledGroupIdxs s groups := by
  unfold filledGroupIdxs
  rw [List.mem_filter, List.mem_range]
  have hlt : ig < groups.length := by
    by_contra hb
    push_neg at hb
    rw [List.get?_eq_none.mpr hb] at hget
    cases hget
  refine ⟨hlt, ?_⟩
  rw [getD_of_get? [] hget]
  exact hfil

theorem dedup_count (filled : List Nat) (P : String → Option Nat) (gi : Nat) :
    ∀ (raws : List RawUnfilled) (proc : List Nat),
    (∀ r ∈ raws, P r.field = r.group_idx) →
    List.countP (fun c => P c.field == some gi) (dedupUnfilled filled raws proc) ≤
      (if filled.contains gi || proc.contains gi then 0 else 1) := by
  intro raws
  induction raws with
  | nil =>
    intro proc _
    simp [dedupUnfilled]
  | cons r rs ih =>
    intro proc hP
    have hPr := hP r (List.mem_cons_self _ _)
    have hPrs : ∀ x ∈ rs, P x.field = x.group_idx :=
      fun x hx => hP x (List.mem_cons_of_mem _ hx)
    rcases hg : r.group_idx with _ | gj
    · simp only [dedupUnfilled, hg, List.countP_cons]
      have hpred : (P (candOfRaw r).field == some gi) = false := by
        simp [candOfRaw, hPr, hg]
      rw [hpred]
      simpa using ih proc hPrs
    · simp only [dedupUnfilled, hg]
      by_cases hfil : filled.contains gj = true
      · rw [if_pos hfil]
        exact ih proc hPrs
      · rw [if_neg hfil]
        by_cases hproc : proc.contains gj = true
        · rw [if_pos hproc]
          exact ih proc hPrs
        · rw [if_neg hproc]
          rw [List.countP_cons]
          by_cases hgij : gj = gi
          · subst hgij
            have hpred : (P (candOfRaw r).field == some gj) = true := by
              simp [candOfRaw, hPr, hg]
            rw [hpred]
            have hbound := ih (gj :: proc) hPrs
            have hc : ((gj :: proc).contains gj) = true := by simp
            rw [hc] at hbound
            simp only [Bool.or_true, if_pos, if_true, ite_true] at hbound
            have hfil2 : filled.contains gj = false := by simpa using hfil
            have hproc2 : proc.contains gj = false := by simpa using hproc
            rw [hfil2, hproc2]
            simpa using hbound
          · have hpred : (P (candOfRaw r).field == some gi) = false := by
              simp [candOfRaw, hPr, hg, hgij]
            rw [hpred]
            have hbound := ih (gj :: proc) hPrs
            have hc : ((gj :: proc).contains gi) = (proc.contains gi) := by
              simp [List.contains_cons]
              intro he
              exact absurd he.symm hgij
            rw [hc] at hbound
            simpa using hbound

theorem countP_two {α : Type} (p : α → Bool) :
    ∀ (l : List α) (i j : Nat) (a b : α), i < j →
    l.get? i = some a → l.get? j = some b → p a = true → p b = true →
    2 ≤ List.countP p l := by
  intro l
  induction l with
  | nil => intro i j a b _ hi; simp at hi
  | cons x t ih =>
    intro i j a b hij hi hj hpa hpb
    match i, j with
    | 0, j + 1 =>
      obtain rfl : x = a := by simpa using hi
      have hbt : b ∈ t := List.get?_mem (by simpa using hj)
      have hpos : 0 < List.countP p t := List.countP_pos.mpr ⟨b, hbt, hpb⟩
      rw [List.countP_cons]
      have hone : (if p x = true then 1 else 0) = 1 := by simp [hpa]
      rw [hone]
      omega
    | i + 1, j + 1 =>
      have hrec := ih i j a b (by omega) (by simpa using hi) (by simpa using hj) hpa hpb
      rw [List.countP_cons]
      omega

/-- C2 (confirmed): unfilled-field resolution never yields a candidate
from a satisfied common-field group (one with a member holding a
non-empty, non-"N/A" value in some document), and never yields two list
positions whose fields belong to the same common-field group of the
session category. -/
theorem C2_group_dedup (s : Session) (g : List String)
    (hg : g ∈ categoryGroups s.category) :
    (groupFilled s g = true → ∀ c ∈ get_unfilled_fields s, c.field ∉ g) ∧
    (∀ i j ci cj, i < j →
      (get_unfilled_fields s).get? i = some ci →
      (get_unfilled_fields s).get? j = some cj →
      ¬(ci.field ∈ g ∧ cj.field ∈ g)) := by
  have hd := table_groups_disjoint s.category
  by_cases hcond : (hasGuardianFields s && !s.guardian_checked &&
      !(guardianEmptyFields s).isEmpty) = true
  · obtain ⟨c0, rest, hgf⟩ : ∃ c0 rest, guardianEmptyFields s = c0 :: rest := by
      rcases hgf : guardianEmptyFields s with _ | ⟨c0, rest⟩
      · rw [hgf] at hcond
        simp at hcond
      · exact ⟨c0, rest, rfl⟩
    have hres : get_unfilled_fields s =
        [⟨c0.document, "__guardian_exists__", "후견인이 있으신가요?"⟩] := by
      simp only [get_unfilled_fields, hgf]
      rw [hgf] at hcond
      rw [if_pos hcond]
    constructor
    · intro _ c hc hcf
      rw [hres] at hc
      obtain rfl : c = ⟨c0.document, "__guardian_exists__", "후견인이 있으신가요?"⟩ := by
        simpa using hc
      have hps := pseudo_not_in_groups s.category hg
      have hcc : g.contains "__guardian_exists__" = true := List.elem_eq_true_of_mem hcf
      rw [hps] at hcc
      cases hcc
    · intro i j ci cj hij hi hj _
      rw [hres] at hj
      have hjlt : j < 1 := by
        by_contra hb
        push_neg at hb
        rw [List.get?_eq_none.mpr (by simpa using hb)] at hj
        cases hj
      omega
  · have hres : get_unfilled_fields s =
        dedupUnfilled (filledGroupIdxs s (categoryGroups s.category))
          (collectUnfilled s (categoryGroups s.category)) [] := by
      simp only [get_unfilled_fields]
      rw [if_neg hcond]
    constructor
    · intro hfil c hc hcf
      rw [hres] at hc
      obtain ⟨r, hr, hcand, hnf⟩ := dedup_mem hc
      have hgidx := collect_gidx hr
      have hfield : r.field = c.field := by rw [← hcand]; rfl
      obtain ⟨ig, hfind, hget⟩ := findGroupIdx_mem hd hg (hfield ▸ hcf)
      have hmf := mem_filledGroupIdxs hget hfil
      have hcontains : (filledGroupIdxs s (categoryGroups s.category)).contains ig = true :=
        List.elem_eq_true_of_mem hmf
      have hzero := hnf ig (by rw [hgidx, hfind])
      rw [hzero] at hcontains
      cases hcontains
    · rintro i j ci cj hij hi hj ⟨hfi, hfj⟩
      rw [hres] at hi hj
      obtain ⟨ig, hfind, hget⟩ := findGroupIdx_mem hd hg hfi
      obtain ⟨ig2, hfind2, hget2⟩ := findGroupIdx_mem hd hg hfj
      have hig : ig2 = ig := by
        by_contra hne
        exact pairwiseDisjointB_apart hd (fun e => hne e.symm) hget hget2 hfi hfi
      have hcnt := dedup_count (filledGroupIdxs s (categoryGroups s.category))
        (findGroupIdx (categoryGroups s.category)) ig
        (collectUnfilled s (categoryGroups s.category)) []
        (fun r hr => (collect_gidx hr).symm)
      have h2 := countP_two
        (fun c => findGroupIdx (categoryGroups s.category) c.field == some ig)
        _ i j ci cj hij hi hj (by simp [hfind])
        (by simp [hfind2, hig])
      rw [show ([] : List Nat).contains ig = false from rfl, Bool.or_false] at hcnt
      by_cases hcf : (filledGroupIdxs s (categoryGroups s.category)).contains ig = true
      · rw [if_pos hcf] at hcnt
        omega
      · rw [if_neg hcf] at hcnt
        omega

/-- C2 witness: with the name group already answered in the first
document, the returned candidate list contains the birthdate candidate
and nothing from the satisfied name group. -/
theorem C2_group_dedup_witness :
    groupNameYouth ∈ categoryGroups sessGroupFilled.category ∧
    groupFilled sessGroupFilled groupNameYouth = true ∧
    (⟨"위임장", "delegator.birthdate", "생년월일"⟩ : Candidate) ∈
      get_unfilled_fields sessGroupFilled ∧
    (⟨"위임장", "delegator.birthdate", "생년월일"⟩ : Candidate).field ∉ groupNameYouth := by
  refine ⟨by decide, by decide, by decide, ?_⟩
  exact (C2_group_dedup sessGroupFilled groupNameYouth (by decide)).1 (by decide) _ (by decide)

/-! ## Claim C3: propagation behaviour and idempotence -/

theorem alookup_map {β : Type} (l : List (String × β)) (k : String) (F : β → β) :
    alookup (l.map (fun p => (p.1, F p.2))) k = (alookup l k).map F := by
  induction l with
  | nil => simp [alookup]
  | cons p t ih =>
    by_cases hk : p.1 = k
    · simp [alookup, hk]
    · simp [alookup, hk, ih]

theorem aset_isSome {β : Type} (l : List (String × β)) (k k' : String) (v : β) :
    (alookup (aset l k v) k').isSome = (alookup l k').isSome := by
  by_cases hk : k' = k
  · subst hk
    rcases h : alookup l k' with _ | w
    · rw [aset_of_lookup_none v h, h]
    · simp [alookup_aset_self v h, h]
  · rw [alookup_aset_ne _ _ hk]

theorem dset_dset (l : List (String × DocState)) (dn : String)
    (f g : DocState → DocState) :
    dset (dset l dn f) dn g = dset l dn (fun d => g (f d)) := by
  induction l with
  | nil => simp [dset]
  | cons p t ih =>
    by_cases hp : p.1 = dn
    · simp [dset, hp]
    · simp [dset, hp, ih]

theorem append_right_ne {a b : String} (pfx : String) (h : a ≠ b) :
    pfx ++ a ≠ pfx ++ b := by
  intro he
  apply h
  have hd := congrArg String.data he
  rw [String.data_append, String.data_append] at hd
  exact String.ext (List.append_cancel_left hd)

theorem fill_none {s : Session} {src : String} (v : String)
    (h : (categoryGroups s.category).find? (fun g => g.contains src) = none) :
    auto_fill_common_fields s src v = s := by
  simp only [auto_fill_common_fields, h]

theorem fill_some {s : Session} {src : String} (v : String) {related : List String}
    (h : (categoryGroups s.category).find? (fun g => g.contains src) = some related) :
    auto_fill_common_fields s src v =
      { s with documents :=
          s.documents.map (fun p => (p.1, autoFillDoc related src v p.2)) } := by
  simp only [auto_fill_common_fields, h]

theorem fill_category (s : Session) (src v : String) :
    (auto_fill_common_fields s src v).category = s.category := by
  rcases h : (categoryGroups s.category).find? (fun g => g.contains src) with _ | related
  · rw [fill_none v h]
  · rw [fill_some v h]

theorem calc_category (s : Session) (dn fn : String) :
    (auto_calculate_period s dn fn).category = s.category := by
  unfold auto_calculate_period
  rcases h : alookup s.documents dn with _ | dd <;> simp only [h] <;> rfl

theorem update_category (s : Session) (dn fn v : String) :
    (update_form_field s dn fn v).1.category = s.category := by
  unfold update_form_field
  rcases hdd : alookup s.documents dn with _ | dd
  · simp only [hdd]
  · simp only [hdd]
    rcases hold : alookup dd.fields fn with _ | old
    · simp only [hold]
    · simp only [hold]
      rw [calc_category, fill_category]
      rfl

theorem autoFillStep_lookup_src (src v : String) (d : DocState) (f : String) :
    alookup (autoFillStep src v d f).fields src = alookup d.fields src := by
  unfold autoFillStep
  by_cases hf : f = src
  · simp [hf]
  · simp only [hf, if_neg, if_false, ite_false]
    rcases hl : alookup d.fields f with _ | old
    · rfl
    · by_cases ho : old = "" <;> simp [ho, alookup_aset_ne _ _ (fun e => hf e.symm)]

theorem autoFillStep_isSome (src v : String) (d : DocState) (f k : String) :
    (alookup (autoFillStep src v d f).fields k).isSome =
      (alookup d.fields k).isSome := by
  unfold autoFillStep
  by_cases hf : f = src
  · simp [hf]
  · simp only [hf, if_neg, if_false, ite_false]
    rcases hl : alookup d.fields f with _ | old
    · rfl
    · by_cases ho : old = "" <;> simp [ho, aset_isSome]

theorem autoFillStep_notEmpty_mono {src v : String} (hv : v ≠ "") {d : DocState}
    {k : String} (h : alookup d.fields k ≠ some "") (f : String) :
    alookup (autoFillStep src v d f).fields k ≠ some "" := by
  unfold autoFillStep
  by_cases hf : f = src
  · simpa [hf]
  · simp only [hf, if_neg, if_false, ite_false]
    rcases hl : alookup d.fields f with _ | old
    · simpa
    · by_cases ho : old = ""
      · simp only [ho, ne_eq, not_true_eq_false, ite_false, if_false, Bool.false_eq_true]
        by_cases hk : k = f
        · subst hk
          rw [alookup_aset_self v hl]
          simp [hv]
        · rw [alookup_aset_ne _ _ hk]
          exact h
      · simpa [ho]

theorem autoFillStep_notEmpty_self {src v : String} (hv : v ≠ "") (d : DocState)
    {f : String} (hf : f ≠ src) :
    alookup (autoFillStep src v d f).fields f ≠ some "" := by
  unfold autoFillStep
  simp only [hf, if_neg, if_false, ite_false]
  rcases hl : alookup d.fields f with _ | old
  · simp [hl]
  · by_cases ho : old = ""
    · simp only [ho, ne_eq, not_true_eq_false, ite_false, if_false, Bool.false_eq_true]
      rw [alookup_aset_self v hl]
      simp [hv]
    · simp [hl, ho]

theorem autoFillStep_id {src v : String} {d : DocState} {f : String}
    (h : f = src ∨ alookup d.fields f ≠ some "") :
    autoFillStep src v d f = d := by
  unfold autoFillStep
  by_cases hf : f = src
  · simp [hf]
  · rcases h with h | h
    · exact absurd h hf
    · simp only [hf, if_neg, if_false, ite_false]
      rcases hl : alookup d.fields f with _ | old
      · rfl
      · have ho : old ≠ "" := fun he => h (by rw [hl, he])
        simp [ho]

theorem autoFillStep_char (src v : String) (d : DocState) (g k : String) :
    alookup (autoFillStep src v d g).fields k = alookup d.fields k ∨
      (alookup d.fields k = some "" ∧
        alookup (autoFillStep src v d g).fields k = some v) := by
  unfold autoFillStep
  by_cases hg : g = src
  · simp [hg]
  · simp only [hg, if_neg, if_false, ite_false]
    rcases hl : alookup d.fields g with _ | old
    · exact Or.inl rfl
    · by_cases ho : old = ""
      · simp only [ho, ne_eq, not_true_eq_false, ite_false, if_false, Bool.false_eq_true]
        by_cases hk : k = g
        · subst hk
          right
          refine ⟨by rw [hl, ho], ?_⟩
          exact alookup_aset_self v hl
        · exact Or.inl (alookup_aset_ne _ _ hk)
      · exact Or.inl (by simp [ho])

theorem autoFillDoc_char (related : List String) (src v : String) (dd : DocState)
    (k : String) :
    alookup (autoFillDoc related src v dd).fields k = alookup dd.fields k ∨
      (alookup dd.fields k = some "" ∧
        alookup (autoFillDoc related src v dd).fields k = some v) := by
  induction related generalizing dd with
  | nil => exact Or.inl rfl
  | cons g gs ih =>
    show alookup (autoFillDoc gs src v (autoFillStep src v dd g)).fields k = _ ∨ _
    rcases ih (autoFillStep src v dd g) with h1 | ⟨h1, h2⟩
    · rcases autoFillStep_char src v dd g k with h2 | ⟨h2, h3⟩
      · exact Or.inl (h1.trans h2)
      · exact Or.inr ⟨h2, h1.trans h3⟩
    · rcases autoFillStep_char src v dd g k with h3 | ⟨h3, h4⟩
      · exact Or.inr ⟨h3.symm.trans h1, h2⟩
      · exact Or.inr ⟨h3, h2⟩

theorem autoFillDoc_lookup_src (related : List String) (src v : String)
    (dd : DocState) :
    alookup (autoFillDoc related src v dd).fields src = alookup dd.fields src := by
  induction related generalizing dd with
  | nil => rfl
  | cons g gs ih =>
    show alookup (autoFillDoc gs src v (autoFillStep src v dd g)).fields src = _
    rw [ih, autoFillStep_lookup_src]

theorem autoFillDoc_isSome (related : List String) (src v : String) (dd : DocState)
    (k : String) :
    (alookup (autoFillDoc related src v dd).fields k).isSome =
      (alookup dd.fields k).isSome := by
  induction related generalizing dd with
  | nil => rfl
  | cons g gs ih =>
    show (alookup (autoFillDoc gs src v (autoFillStep src v dd g)).fields k).isSome = _
    rw [ih, autoFillStep_isSome]

theorem autoFillDoc_notEmpty_mono {src v : String} (hv : v ≠ "")
    (related : List String) {dd : DocState} {k : String}
    (h : alookup dd.fields k ≠ some "") :
    alookup (autoFillDoc related src v dd).fields k ≠ some "" := by
  induction related generalizing dd with
  | nil => exact h
  | cons g gs ih => exact ih (autoFillStep_notEmpty_mono hv h g)

theorem autoFillDoc_post {src v : String} (hv : v ≠ "") (related : List String)
    (dd : DocState) {f : String} (hf : f ∈ related) (hfs : f ≠ src) :
    alookup (autoFillDoc related src v dd).fields f ≠ some "" := by
  induction related generalizing dd with
  | nil => exact absurd hf (List.not_mem_nil f)
  | cons g gs ih =>
    rcases List.mem_cons.mp hf with rfl | hmem
    · exact autoFillDoc_notEmpty_mono hv gs (autoFillStep_notEmpty_self hv dd hfs)
    · exact ih (autoFillStep src v dd g) hmem

theorem autoFillDoc_id {src v : String} (related : List String) {dd : DocState}
    (h : ∀ f ∈ related, f = src ∨ alookup dd.fields f ≠ some "") :
    autoFillDoc related src v dd = dd := by
  induction related with
  | nil => rfl
  | cons g gs ih =>
    have hg : autoFillStep src v dd g = dd :=
      autoFillStep_id (h g (List.mem_cons_self g gs))
    show autoFillDoc gs src v (autoFillStep src v dd g) = dd
    rw [hg]
    exact ih (fun f hf => h f (List.mem_cons_of_mem g hf))

theorem calcDoc_notEmpty_mono (fn : String) {dd : DocState} {k : String}
    (h : alookup dd.fields k ≠ some "") :
    alookup (calcDoc fn dd).fields k ≠ some "" := by
  rcases calcDoc_cases fn dd with he | ⟨pfx, oldT, val, hold, hvne, he⟩ <;> rw [he]
  · exact h
  · show alookup (aset dd.fields (pfx ++ ".total_months") val) k ≠ some ""
    by_cases hk : k = pfx ++ ".total_months"
    · subst hk
      rw [alookup_aset_self val hold]
      simp [hvne]
    · rw [alookup_aset_ne _ _ hk]
      exact h

theorem calcDoc_split (fn : String) (dd : DocState) :
    calcDoc fn dd = dd ∨
    ∃ pfx sy sm ey em oldT,
      dateFieldPatterns.any (fun pat => strContains fn pat) = true ∧
      rsplitPrefix fn = some pfx ∧
      ((alookup dd.fields (pfx ++ ".start_year")).isSome ∧
       (alookup dd.fields (pfx ++ ".start_month")).isSome ∧
       (alookup dd.fields (pfx ++ ".end_year")).isSome ∧
       (alookup dd.fields (pfx ++ ".end_month")).isSome ∧
       (alookup dd.fields (pfx ++ ".total_months")).isSome) ∧
      ¬ ((alookup dd.fields (pfx ++ ".start_year")).getD "" = "" ∨
         (alookup dd.fields (pfx ++ ".start_month")).getD "" = "" ∨
         (alookup dd.fields (pfx ++ ".end_year")).getD "" = "" ∨
         (alookup dd.fields (pfx ++ ".end_month")).getD "" = "") ∧
      pythonInt ((alookup dd.fields (pfx ++ ".start_year")).getD "") = some sy ∧
      pythonInt ((alookup dd.fields (pfx ++ ".start_month")).getD "") = some sm ∧
      pythonInt ((alookup dd.fields (pfx ++ ".end_year")).getD "") = some ey ∧
      pythonInt ((alookup dd.fields (pfx ++ ".end_month")).getD "") = some em ∧
      alookup dd.fields (pfx ++ ".total_months") = some oldT ∧
      calcDoc fn dd =
        { dd with
          fields := aset dd.fields (pfx ++ ".total_months")
            (pyStrInt (if (ey - sy) * 12 + (em - sm) < 0 then 0
                       else (ey - sy) * 12 + (em - sm))),
          filled_count := dd.filled_count + (if oldT = "" then 1 else 0) } := by
  unfold calcDoc
  by_cases hpat : dateFieldPatterns.any (fun pat => strContains fn pat) = true
  · simp only [hpat, not_true, if_false, ite_false]
    rcases hpfx : rsplitPrefix fn with _ | pfx
    · exact Or.inl rfl
    · by_cases hall : ((alookup dd.fields (pfx ++ ".start_year")).isSome ∧
          (alookup dd.fields (pfx ++ ".start_month")).isSome ∧
          (alookup dd.fields (pfx ++ ".end_year")).isSome ∧
          (alookup dd.fields (pfx ++ ".end_month")).isSome ∧
          (alookup dd.fields (pfx ++ ".total_months")).isSome)
      · simp only [hall, not_true, if_false, ite_false]
        by_cases hemp : ((alookup dd.fields (pfx ++ ".start_year")).getD "" = "" ∨
            (alookup dd.fields (pfx ++ ".start_month")).getD "" = "" ∨
            (alookup dd.fields (pfx ++ ".end_year")).getD "" = "" ∨
            (alookup dd.fields (pfx ++ ".end_month")).getD "" = "")
        · simp [hemp]
        · simp only [hemp, if_false, ite_false]
          rcases o1 : pythonInt ((alookup dd.fields (pfx ++ ".start_year")).getD "")
            with _ | i1
          · exact Or.inl rfl
          rcases o2 : pythonInt ((alookup dd.fields (pfx ++ ".start_month")).getD "")
            with _ | i2
          · exact Or.inl rfl
          rcases o3 : pythonInt ((alookup dd.fields (pfx ++ ".end_year")).getD "")
            with _ | i3
          · exact Or.inl rfl
          rcases o4 : pythonInt ((alookup dd.fields (pfx ++ ".end_month")).getD "")
            with _ | i4
          · exact Or.inl rfl
          right
          obtain ⟨oldT, hold⟩ := Option.isSome_iff_exists.mp hall.2.2.2.2
          refine ⟨pfx, i1, i2, i3, i4, oldT, trivial, rfl, hall, hemp,
            o1, o2, o3, o4, hold, ?_⟩
          simp [hold]
      · simp [hall]
  · simp [hpat]

theorem calcDoc_recompute (fn pfx : String) (A ds : List (String × String))
    (c2 : Int) (tot : Nat) (w : String) (sy sm ey em : Int)
    (hpat : dateFieldPatterns.any (fun pat => strContains fn pat) = true)
    (hpfx : rsplitPrefix fn = some pfx)
    (hs1 : (alookup A (pfx ++ ".start_year")).isSome)
    (hs2 : (alookup A (pfx ++ ".start_month")).isSome)
    (hs3 : (alookup A (pfx ++ ".end_year")).isSome)
    (hs4 : (alookup A (pfx ++ ".end_month")).isSome)
    (hs5 : (alookup A (pfx ++ ".total_months")).isSome)
    (hemp : ¬ ((alookup A (pfx ++ ".start_year")).getD "" = "" ∨
               (alookup A (pfx ++ ".start_month")).getD "" = "" ∨
               (alookup A (pfx ++ ".end_year")).getD "" = "" ∨
               (alookup A (pfx ++ ".end_month")).getD "" = ""))
    (o1 : pythonInt ((alookup A (pfx ++ ".start_year")).getD "") = some sy)
    (o2 : pythonInt ((alookup A (pfx ++ ".start_month")).getD "") = some sm)
    (o3 : pythonInt ((alookup A (pfx ++ ".end_year")).getD "") = some ey)
    (o4 : pythonInt ((alookup A (pfx ++ ".end_month")).getD "") = some em) :
    calcDoc fn ⟨aset A (pfx ++ ".total_months") w, ds, c2, tot⟩ =
      ⟨aset A (pfx ++ ".total_months")
         (pyStrInt (if (ey - sy) * 12 + (em - sm) < 0 then 0
                    else (ey - sy) * 12 + (em - sm))),
       ds, c2 + (if w = "" then 1 else 0), tot⟩ := by
  obtain ⟨oldw, holdw⟩ := Option.isSome_iff_exists.mp hs5
  have hne1 : (pfx ++ ".start_year") ≠ (pfx ++ ".total_months") :=
    append_right_ne pfx (by decide)
  have hne2 : (pfx ++ ".start_month") ≠ (pfx ++ ".total_months") :=
    append_right_ne pfx (by decide)
  have hne3 : (pfx ++ ".end_year") ≠ (pfx ++ ".total_months") :=
    append_right_ne pfx (by decide)
  have hne4 : (pfx ++ ".end_month") ≠ (pfx ++ ".total_months") :=
    append_right_ne pfx (by decide)
  have l1 := alookup_aset_ne A w hne1
  have l2 := alookup_aset_ne A w hne2
  have l3 := alookup_aset_ne A w hne3
  have l4 := alookup_aset_ne A w hne4
  have l5 : alookup (aset A (pfx ++ ".total_months") w) (pfx ++ ".total_months") =
      some w := alookup_aset_self w holdw
  simp only [calcDoc, hpat, hpfx, not_true, if_false, ite_false, Bool.false_eq_true,
    l1, l2, l3, l4, l5, Option.isSome_some, hs1, hs2, hs3, hs4, and_true, true_and,
    and_self, not_false_iff, ite_true, if_true, o1, o2, o3, o4, Option.getD_some,
    aset_aset, hemp]

theorem docZero (d : DocState) :
    ({ d with fields := d.fields, filled_count := d.filled_count + 0 } : DocState) = d := by
  cases d
  simp

theorem calcDoc_absorb (fn v : String) (hv : v ≠ "") (e : DocState)
    (he : alookup e.fields fn = some v) :
    (∃ old1, alookup (calcDoc fn e).fields fn = some old1 ∧ old1 ≠ "") ∧
    calcDoc fn { calcDoc fn e with
        fields := aset (calcDoc fn e).fields fn v,
        filled_count := (calcDoc fn e).filled_count + 0 } = calcDoc fn e := by
  rcases calcDoc_split fn e with h1 |
    ⟨pfx, sy, sm, ey, em, oldT, hpat, hpfx, hall, hemp, o1, o2, o3, o4, hold, h1⟩
  · refine ⟨⟨v, by rw [h1]; exact he, hv⟩, ?_⟩
    have he2 : aset (calcDoc fn e).fields fn v = (calcDoc fn e).fields := by
      rw [h1]
      exact aset_self_of_lookup he
    rw [he2, docZero, h1, h1]
  · obtain ⟨hs1, hs2, hs3, hs4, hs5⟩ := hall
    constructor
    · by_cases hfn : fn = pfx ++ ".total_months"
      · refine ⟨pyStrInt (if (ey - sy) * 12 + (em - sm) < 0 then 0
            else (ey - sy) * 12 + (em - sm)), ?_, pyStrInt_ne_empty _⟩
        rw [h1]
        show alookup (aset e.fields (pfx ++ ".total_months") _) fn = _
        rw [hfn]
        exact alookup_aset_self _ hold
      · refine ⟨v, ?_, hv⟩
        rw [h1]
        show alookup (aset e.fields (pfx ++ ".total_months") _) fn = _
        exact (alookup_aset_ne _ _ hfn).trans he
    · rw [h1]
      dsimp only
      by_cases hfn : fn = pfx ++ ".total_months"
      · subst hfn
        rw [aset_aset]
        rw [calcDoc_recompute (pfx ++ ".total_months") pfx e.fields e.descriptions
          (e.filled_count + (if oldT = "" then 1 else 0) + 0) e.total_count v
          sy sm ey em hpat hpfx hs1 hs2 hs3 hs4 hs5 hemp o1 o2 o3 o4]
        simp [hv]
      · have hfl : aset (aset e.fields (pfx ++ ".total_months")
            (pyStrInt (if (ey - sy) * 12 + (em - sm) < 0 then 0
                       else (ey - sy) * 12 + (em - sm)))) fn v =
            aset e.fields (pfx ++ ".total_months")
              (pyStrInt (if (ey - sy) * 12 + (em - sm) < 0 then 0
                         else (ey - sy) * 12 + (em - sm))) :=
          aset_self_of_lookup ((alookup_aset_ne _ _ hfn).trans he)
        rw [hfl]
        rw [calcDoc_recompute fn pfx e.fields e.descriptions
          (e.filled_count + (if oldT = "" then 1 else 0) + 0) e.total_count
          (pyStrInt (if (ey - sy) * 12 + (em - sm) < 0 then 0
                     else (ey - sy) * 12 + (em - sm)))
          sy sm ey em hpat hpfx hs1 hs2 hs3 hs4 hs5 hemp o1 o2 o3 o4]
        simp [pyStrInt_ne_empty]

theorem update_eq (S : Session) (dn fn v : String) {DD : DocState} {old : String}
    (h1 : alookup S.documents dn = some DD)
    (h2 : alookup DD.fields fn = some old) :
    update_form_field S dn fn v =
      (auto_calculate_period
        (auto_fill_common_fields
          (setDoc S dn (fun d =>
            { d with fields := aset d.fields fn v,
                     filled_count := d.filled_count +
                       (if old = "" ∧ v ≠ "" then 1
                        else if old ≠ "" ∧ v = "" then -1 else 0) })) fn v)
        dn fn, true) := by
  simp only [update_form_field, h1, h2]

theorem calc_eq (S : Session) (dn fn : String) {DD : DocState}
    (h : alookup S.documents dn = some DD) :
    auto_calculate_period S dn fn = setDoc S dn (calcDoc fn) := by
  simp only [auto_calculate_period, h]

theorem setDoc_setDoc (S : Session) (dn : String) (f g : DocState → DocState) :
    setDoc (setDoc S dn f) dn g = setDoc S dn (fun d => g (f d)) := by
  simp [setDoc, dset_dset]

theorem setDoc_id (S : Session) (dn : String) {DD : DocState}
    (h : alookup S.documents dn = some DD) {f : DocState → DocState}
    (hf : f DD = DD) : setDoc S dn f = S := by
  show ({ S with documents := dset S.documents dn f } : Session) = S
  rw [dset_self h hf]

theorem fill_id (S : Session) (src v : String) {related : List String}
    (hrel : (categoryGroups S.category).find? (fun g => g.contains src) = some related)
    (hH : ∀ p ∈ S.documents, autoFillDoc related src v p.2 = p.2) :
    auto_fill_common_fields S src v = S := by
  rw [fill_some v hrel]
  show ({ S with documents :=
      S.documents.map (fun p => (p.1, autoFillDoc related src v p.2)) } : Session) = S
  have hm : S.documents.map (fun p => (p.1, autoFillDoc related src v p.2)) =
      S.documents := by
    have h1 : S.documents.map (fun p => (p.1, autoFillDoc related src v p.2)) =
        S.documents.map (fun p => p) :=
      List.map_congr_left (fun p hp => by rw [hH p hp])
    rw [h1, List.map_id']
  rw [hm]

theorem update_second (W : Session) (dn fn v : String) {E1 : DocState} {old1 : String}
    (hW : alookup W.documents dn = some E1)
    (hold1 : alookup E1.fields fn = some old1)
    (hone : old1 ≠ "") (hv : v ≠ "")
    (hcalc : calcDoc fn { E1 with
        fields := aset E1.fields fn v,
        filled_count := E1.filled_count + 0 } = E1)
    (hfill : auto_fill_common_fields
        (setDoc W dn (fun d => { d with
          fields := aset d.fields fn v,
          filled_count := d.filled_count + 0 })) fn v =
      setDoc W dn (fun d => { d with
        fields := aset d.fields fn v,
        filled_count := d.filled_count + 0 })) :
    update_form_field W dn fn v = (W, true) := by
  rw [update_eq W dn fn v hW hold1]
  have hdelta : (if old1 = "" ∧ v ≠ "" then (1 : Int)
      else if old1 ≠ "" ∧ v = "" then -1 else 0) = 0 := by simp [hone, hv]
  rw [hdelta]
  rw [hfill]
  have hW' : alookup (setDoc W dn (fun d =>
      { d with
        fields := aset d.fields fn v,
        filled_count := d.filled_count + 0 })).documents dn =
      some { E1 with
        fields := aset E1.fields fn v,
        filled_count := E1.filled_count + 0 } := by
    rw [setDoc_lookup]
    simp [hW]
  rw [calc_eq _ dn fn hW', setDoc_setDoc]
  rw [setDoc_id W dn hW (by exact hcalc)]

theorem update_idem (s : Session) (dn fn v : String) (hv : v ≠ "") :
    update_form_field (update_form_field s dn fn v).1 dn fn v =
      update_form_field s dn fn v := by
  rcases hdd : alookup s.documents dn with _ | dd
  · simp only [update_form_field, hdd]
  · rcases hold : alookup dd.fields fn with _ | old
    · simp only [update_form_field, hdd, hold]
    · have hs1dn : alookup (setDoc s dn (fun d =>
          { d with
            fields := aset d.fields fn v,
            filled_count := d.filled_count +
              (if old = "" ∧ v ≠ "" then 1
               else if old ≠ "" ∧ v = "" then -1 else 0) })).documents dn =
          some { dd with
            fields := aset dd.fields fn v,
            filled_count := dd.filled_count +
              (if old = "" ∧ v ≠ "" then 1
               else if old ≠ "" ∧ v = "" then -1 else 0) } := by
        rw [setDoc_lookup]
        simp [hdd]
      have hF0fn : alookup ({ dd with
          fields := aset dd.fields fn v,
          filled_count := dd.filled_count +
            (if old = "" ∧ v ≠ "" then 1
             else if old ≠ "" ∧ v = "" then -1 else 0) } : DocState).fields fn =
          some v := alookup_aset_self v hold
      rcases hrel : (categoryGroups s.category).find? (fun g => g.contains fn)
        with _ | related
      · -- no common-field group for fn: both fills are the identity
        obtain ⟨⟨old1, hold1, hone⟩, habs2⟩ := calcDoc_absorb fn v hv _ hF0fn
        have h1 : update_form_field s dn fn v =
            (setDoc s dn (fun d => calcDoc fn
              { d with
                fields := aset d.fields fn v,
                filled_count := d.filled_count +
                  (if old = "" ∧ v ≠ "" then 1
                   else if old ≠ "" ∧ v = "" then -1 else 0) }), true) := by
          rw [update_eq s dn fn v hdd hold, fill_none v (by exact hrel),
            calc_eq _ dn fn hs1dn, setDoc_setDoc]
        have hWdn : alookup (setDoc s dn (fun d => calcDoc fn
            { d with
              fields := aset d.fields fn v,
              filled_count := d.filled_count +
                (if old = "" ∧ v ≠ "" then 1
                 else if old ≠ "" ∧ v = "" then -1 else 0) })).documents dn =
            some (calcDoc fn { dd with
              fields := aset dd.fields fn v,
              filled_count := dd.filled_count +
                (if old = "" ∧ v ≠ "" then 1
                 else if old ≠ "" ∧ v = "" then -1 else 0) }) := by
          rw [setDoc_lookup]
          simp [hdd]
        rw [h1]
        exact update_second _ dn fn v hWdn hold1 hone hv habs2
          (fill_none v (by exact hrel))
      · -- fn has a common-field group: after the first pass every related
        -- member is non-empty, so the second fill pass is the identity
        obtain ⟨⟨old1, hold1, hone⟩, habs2⟩ := calcDoc_absorb fn v hv
          (autoFillDoc related fn v { dd with
            fields := aset dd.fields fn v,
            filled_count := dd.filled_count +
              (if old = "" ∧ v ≠ "" then 1
               else if old ≠ "" ∧ v = "" then -1 else 0) })
          (by rw [autoFillDoc_lookup_src]; exact hF0fn)
        have hs2dn : alookup ({ setDoc s dn (fun d =>
            { d with
              fields := aset d.fields fn v,
              filled_count := d.filled_count +
                (if old = "" ∧ v ≠ "" then 1
                 else if old ≠ "" ∧ v = "" then -1 else 0) }) with
            documents := (setDoc s dn (fun d =>
              { d with
                fields := aset d.fields fn v,
                filled_count := d.filled_count +
                  (if old = "" ∧ v ≠ "" then 1
                   else if old ≠ "" ∧ v = "" then -1 else 0) })).documents.map
              (fun p => (p.1, autoFillDoc related fn v p.2)) } : Session).documents dn =
            some (autoFillDoc related fn v { dd with
              fields := aset dd.fields fn v,
              filled_count := dd.filled_count +
                (if old = "" ∧ v ≠ "" then 1
                 else if old ≠ "" ∧ v = "" then -1 else 0) }) := by
          show alookup ((setDoc s dn (fun d =>
            { d with
              fields := aset d.fields fn v,
              filled_count := d.filled_count +
                (if old = "" ∧ v ≠ "" then 1
                 else if old ≠ "" ∧ v = "" then -1 else 0) })).documents.map
            (fun p => (p.1, autoFillDoc related fn v p.2))) dn = _
          rw [alookup_map, hs1dn]
          rfl
        have h1 : update_form_field s dn fn v =
            (setDoc ({ setDoc s dn (fun d =>
              { d with
                fields := aset d.fields fn v,
                filled_count := d.filled_count +
                  (if old = "" ∧ v ≠ "" then 1
                   else if old ≠ "" ∧ v = "" then -1 else 0) }) with
              documents := (setDoc s dn (fun d =>
                { d with
                  fields := aset d.fields fn v,
                  filled_count := d.filled_count +
                    (if old = "" ∧ v ≠ "" then 1
                     else if old ≠ "" ∧ v = "" then -1 else 0) })).documents.map
                (fun p => (p.1, autoFillDoc related fn v p.2)) } : Session) dn
              (calcDoc fn), true) := by
          rw [update_eq s dn fn v hdd hold, fill_some v (by exact hrel),
            calc_eq _ dn fn hs2dn]
        have hWdn : alookup (setDoc ({ setDoc s dn (fun d =>
            { d with
              fields := aset d.fields fn v,
              filled_count := d.filled_count +
                (if old = "" ∧ v ≠ "" then 1
                 else if old ≠ "" ∧ v = "" then -1 else 0) }) with
            documents := (setDoc s dn (fun d =>
              { d with
                fields := aset d.fields fn v,
                filled_count := d.filled_count +
                  (if old = "" ∧ v ≠ "" then 1
                   else if old ≠ "" ∧ v = "" then -1 else 0) })).documents.map
              (fun p => (p.1, autoFillDoc related fn v p.2)) } : Session) dn
            (calcDoc fn)).documents dn =
            some (calcDoc fn (autoFillDoc related fn v { dd with
              fields := aset dd.fields fn v,
              filled_count := dd.filled_count +
                (if old = "" ∧ v ≠ "" then 1
                 else if old ≠ "" ∧ v = "" then -1 else 0) })) := by
          rw [setDoc_lookup]
          simp [hs2dn]
        rw [h1]
        refine update_second _ dn fn v hWdn hold1 hone hv habs2
          (fill_id _ fn v (by exact hrel) ?_)
        intro p hp
        apply autoFillDoc_id
        intro f hf
        by_cases hffn : f = fn
        · exact Or.inl hffn
        · right
          rcases mem_dset hp with hp1 | ⟨ddx, hddx, rfl⟩
          · rcases mem_dset hp1 with hp2 | ⟨ddy, hddy, rfl⟩
            · obtain ⟨q, hq, rfl⟩ := List.mem_map.mp hp2
              exact autoFillDoc_post hv related q.2 hf hffn
            · obtain rfl : autoFillDoc related fn v { dd with
                  fields := aset dd.fields fn v,
                  filled_count := dd.filled_count +
                    (if old = "" ∧ v ≠ "" then 1
                     else if old ≠ "" ∧ v = "" then -1 else 0) } = ddy := by
                injection hs2dn.symm.trans hddy
              exact calcDoc_notEmpty_mono fn (autoFillDoc_post hv related _ hf hffn)
          · obtain rfl : calcDoc fn (autoFillDoc related fn v { dd with
                fields := aset dd.fields fn v,
                filled_count := dd.filled_count +
                  (if old = "" ∧ v ≠ "" then 1
                   else if old ≠ "" ∧ v = "" then -1 else 0) }) = ddx := by
              injection hWdn.symm.trans hddx
            show alookup (aset (calcDoc fn (autoFillDoc related fn v { dd with
                fields := aset dd.fields fn v,
                filled_count := dd.filled_count +
                  (if old = "" ∧ v ≠ "" then 1
                   else if old ≠ "" ∧ v = "" then -1 else 0) })).fields fn v) f ≠
              some ""
            rw [alookup_aset_ne _ _ hffn]
            exact calcDoc_notEmpty_mono fn (autoFillDoc_post hv related _ hf hffn)

/-- C3 counterexample: re-applying the same update_form_field call with the
same value is NOT always idempotent.  Writing the empty string to
delegator.name of the 위임장 document twice leaves a different session than
writing it once, because auto_fill_common_fields increments filled_count for
the related member signature.applicant_name on every pass even though the
propagated value is empty. -/
theorem C3_empty_not_idempotent :
    (update_form_field (update_form_field sessTwoEmpty "위임장" "delegator.name" "").1
        "위임장" "delegator.name" "").1 ≠
      (update_form_field sessTwoEmpty "위임장" "delegator.name" "").1 := by
  decide

/-- C3 (amended): propagation writes the source value only into related
members whose current value is the empty string — every field of the named
document is either left with exactly its previous value (so a non-empty
value, including "N/A", is never overwritten) or was empty and now holds the
propagated value — and for every NON-EMPTY value, re-applying the same
update_form_field call a second time leaves the session unchanged.  (The
original claim's unconditional idempotence is refuted by
C3_empty_not_idempotent: for an empty value the filled counters keep
growing.) -/
theorem C3_propagation_idempotent (s : Session) (src v dn fn : String)
    (hv : v ≠ "") (dd : DocState) (hdd : alookup s.documents dn = some dd) :
    (∃ dd2, alookup (auto_fill_common_fields s src v).documents dn = some dd2 ∧
      ∀ f, alookup dd2.fields f = alookup dd.fields f ∨
        (alookup dd.fields f = some "" ∧ alookup dd2.fields f = some v)) ∧
    update_form_field (update_form_field s dn fn v).1 dn fn v =
      update_form_field s dn fn v := by
  constructor
  · rcases hrel : (categoryGroups s.category).find? (fun g => g.contains src)
      with _ | related
    · refine ⟨dd, ?_, fun f => Or.inl rfl⟩
      rw [fill_none v hrel]
      exact hdd
    · refine ⟨autoFillDoc related src v dd, ?_,
        fun f => autoFillDoc_char related src v dd f⟩
      rw [fill_some v hrel]
      show alookup (s.documents.map (fun p => (p.1, autoFillDoc related src v p.2)))
        dn = _
      rw [alookup_map, hdd]
      rfl
  · exact update_idem s dn fn v hv

/-- Witness for C3_propagation_idempotent at a concrete session: a non-empty
name written to delegator.name of sessTwoEmpty. -/
theorem C3_propagation_idempotent_witness :
    ("홍길동" : String) ≠ "" ∧
    alookup sessTwoEmpty.documents "위임장" =
      some { fields := [("delegator.name", ""), ("signature.applicant_name", "")]
             descriptions := [("delegator.name", "위임하는 사람 이름"),
                              ("signature.applicant_name", "서명")]
             filled_count := 0
             total_count := 2 } ∧
    ((∃ dd2, alookup
        (auto_fill_common_fields sessTwoEmpty "delegator.name" "홍길동").documents
          "위임장" = some dd2 ∧
      ∀ f, alookup dd2.fields f =
          alookup ({ fields := [("delegator.name", ""), ("signature.applicant_name", "")]
                     descriptions := [("delegator.name", "위임하는 사람 이름"),
                                      ("signature.applicant_name", "서명")]
                     filled_count := 0
                     total_count := 2 } : DocState).fields f ∨
        (alookup ({ fields := [("delegator.name", ""), ("signature.applicant_name", "")]
                    descriptions := [("delegator.name", "위임하는 사람 이름"),
                                     ("signature.applicant_name", "서명")]
                    filled_count := 0
                    total_count := 2 } : DocState).fields f = some "" ∧
          alookup dd2.fields f = some "홍길동")) ∧
    update_form_field
        (update_form_field sessTwoEmpty "위임장" "delegator.name" "홍길동").1
        "위임장" "delegator.name" "홍길동" =
      update_form_field sessTwoEmpty "위임장" "delegator.name" "홍길동") :=
  ⟨by decide, by decide,
    C3_propagation_idempotent sessTwoEmpty "delegator.name" "홍길동" "위임장"
      "delegator.name" (by decide) _ (by decide)⟩

/-! ## Claim C6: the guardian transition function -/

theorem fillGuardianDoc_lookup (dd : DocState) (f : String) :
    alookup (fillGuardianDoc dd).fields f =
      (alookup dd.fields f).map (fun w =>
        if strContains f guardianPattern && w == "" then "N/A" else w) := by
  show alookup (dd.fields.map (fun q =>
      if strContains q.1 guardianPattern && q.2 == "" then (q.1, "N/A") else q)) f = _
  induction dd.fields with
  | nil => rfl
  | cons q t ih =>
    rw [List.map_cons]
    by_cases hc : (strContains q.1 guardianPattern && q.2 == "") = true
    · rw [if_pos hc]
      have hcc := hc
      simp only [Bool.and_eq_true] at hcc
      obtain ⟨hc1, hc2⟩ := hcc
      have hc2' : q.2 = "" := by simpa using hc2
      by_cases hq : q.1 = f
      · subst hq
        show (if q.1 = q.1 then some "N/A" else _) = _
        rw [if_pos rfl, alookup, if_pos rfl, Option.map_some']
        rw [if_pos (by rw [hc2', hc1]; rfl)]
      · show (if q.1 = f then _ else alookup (t.map _) f) = _
        rw [if_neg hq, alookup, if_neg hq]
        exact ih
    · rw [if_neg hc]
      by_cases hq : q.1 = f
      · subst hq
        show (if q.1 = q.1 then some q.2 else _) = _
        rw [if_pos rfl, alookup, if_pos rfl, Option.map_some']
        rw [if_neg (fun hcc => hc hcc)]
      · show (if q.1 = f then _ else alookup (t.map _) f) = _
        rw [if_neg hq, alookup, if_neg hq]
        exact ih

/-- C6 counterexample: an utterance matching BOTH keyword sets does not
leave the guardian state unchecked — the source's elif makes it confirm a
guardian as PRESENT ("아니요 있습니다" contains 아니 and 있). -/
theorem C6_both_keywords_confirms_present :
    matchesAny guardianNegKeywords "아니요 있습니다" = true ∧
    matchesAny guardianPosKeywords "아니요 있습니다" = true ∧
    (processTurn ⟨[], ""⟩ sessGuardianEmpty "아니요 있습니다").2.guardian_exists =
      some true ∧
    (processTurn ⟨[], ""⟩ sessGuardianEmpty "아니요 있습니다").2.guardian_checked =
      true := by
  decide

/-- C6 (amended): with the guardian pseudo-field pending (head of the
unfilled list) and no final confirmation pending, an utterance matching only
negative keywords confirms ABSENT and bulk-writes "N/A" into every
currently-empty guardian-prefixed field of every document (counting each);
an utterance matching positive keywords — EVEN IF it also matches negative
keywords, contrary to the frozen claim, see
C6_both_keywords_confirms_present — confirms PRESENT with no bulk write; an
utterance matching neither set leaves the session unchanged and re-asks the
existence question.  (When the refreshed unfilled list comes back empty the
code falls through to the main flow carrying the updated session.) -/
theorem C6_guardian_transition (o : Oracles) (s : Session) (u : String)
    (c0 : Candidate) (rest : List Candidate)
    (hun : get_unfilled_fields s = c0 :: rest)
    (hps : c0.field = "__guardian_exists__")
    (hflag : s.final_confirmation_shown = false) :
    (matchesAny guardianNegKeywords u = true →
      matchesAny guardianPosKeywords u = false →
      ((processTurn o s u).2 = fillGuardianNA { s with
          guardian_checked := true, guardian_exists := some false } ∨
        processTurn o s u = mainFlow o (fillGuardianNA { s with
          guardian_checked := true, guardian_exists := some false }) u
          (c0 :: rest)) ∧
      ∀ dn dd, alookup s.documents dn = some dd →
        alookup (fillGuardianNA { s with
            guardian_checked := true,
            guardian_exists := some false }).documents dn =
          some (fillGuardianDoc dd) ∧
        (∀ f, alookup (fillGuardianDoc dd).fields f =
          (alookup dd.fields f).map (fun w =>
            if strContains f guardianPattern && w == "" then "N/A" else w)) ∧
        (fillGuardianDoc dd).filled_count = dd.filled_count +
          (dd.fields.filter (fun q =>
            strContains q.1 guardianPattern && q.2 == "")).length) ∧
    (matchesAny guardianPosKeywords u = true →
      ((processTurn o s u).2 = { s with
          guardian_checked := true, guardian_exists := some true } ∨
        processTurn o s u = mainFlow o { s with
          guardian_checked := true, guardian_exists := some true } u
          (c0 :: rest))) ∧
    (matchesAny guardianNegKeywords u = false →
      matchesAny guardianPosKeywords u = false →
      processTurn o s u =
        ({ response := "후견인이 있으신가요, 없으신가요?"
           extracted_fields := []
           unfilled_count := (c0 :: rest).length
           completed := false
           awaiting_confirmation := false
           edit_mode := false }, s)) := by
  have hedit : (s.final_confirmation_shown && !s.completed &&
      matchesAny negativeEditKeywords u) = false := by
    rw [hflag]
    rfl
  refine ⟨fun hNeg hPos => ⟨?_, ?_⟩, fun hPos => ?_, fun hNeg hPos => ?_⟩
  · simp only [processTurn, hedit, Bool.false_eq_true, if_false, ite_false, hun,
      hps, if_pos rfl, hNeg, hPos, Bool.not_false, Bool.and_self, if_true, ite_true]
    rcases hrec : get_unfilled_fields (fillGuardianNA { s with
        guardian_checked := true, guardian_exists := some false }) with _ | ⟨v2, rest2⟩
    · simp [hrec]
    · simp [hrec]
  · intro dn dd hdd
    refine ⟨?_, fillGuardianDoc_lookup dd, rfl⟩
    show alookup (s.documents.map (fun p => (p.1, fillGuardianDoc p.2))) dn = _
    rw [alookup_map, hdd]
    rfl
  · simp only [processTurn, hedit, Bool.false_eq_true, if_false, ite_false, hun,
      hps, if_pos rfl, hPos, Bool.not_true, Bool.and_false, if_false, ite_false,
      if_true, ite_true]
    rcases hrec : get_unfilled_fields ({ s with
        guardian_checked := true, guardian_exists := some true } : Session)
      with _ | ⟨v2, rest2⟩
    · simp [hrec]
    · simp [hrec]
  · simp only [processTurn, hedit, Bool.false_eq_true, if_false, ite_false, hun,
      hps, if_pos rfl, hNeg, hPos, Bool.and_false, Bool.false_and, if_false,
      ite_false]
    simp

/-- Witness for C6_guardian_transition: the negative-only utterance
"없습니다" on a session whose pending question is the guardian pseudo-field. -/
theorem C6_guardian_transition_witness :
    get_unfilled_fields sessGuardianEmpty =
      (⟨"신고서", "__guardian_exists__", "후견인이 있으신가요?"⟩ : Candidate) :: [] ∧
    (⟨"신고서", "__guardian_exists__", "후견인이 있으신가요?"⟩ : Candidate).field =
      "__guardian_exists__" ∧
    sessGuardianEmpty.final_confirmation_shown = false ∧
    ((matchesAny guardianNegKeywords "없습니다" = true →
      matchesAny guardianPosKeywords "없습니다" = false →
      ((processTurn ⟨[], ""⟩ sessGuardianEmpty "없습니다").2 =
          fillGuardianNA { sessGuardianEmpty with
            guardian_checked := true, guardian_exists := some false } ∨
        processTurn ⟨[], ""⟩ sessGuardianEmpty "없습니다" =
          mainFlow ⟨[], ""⟩ (fillGuardianNA { sessGuardianEmpty with
            guardian_checked := true, guardian_exists := some false }) "없습니다"
            ((⟨"신고서", "__guardian_exists__", "후견인이 있으신가요?"⟩ : Candidate)
              :: [])) ∧
      ∀ dn dd, alookup sessGuardianEmpty.documents dn = some dd →
        alookup (fillGuardianNA { sessGuardianEmpty with
            guardian_checked := true,
            guardian_exists := some false }).documents dn =
          some (fillGuardianDoc dd) ∧
        (∀ f, alookup (fillGuardianDoc dd).fields f =
          (alookup dd.fields f).map (fun w =>
            if strContains f guardianPattern && w == "" then "N/A" else w)) ∧
        (fillGuardianDoc dd).filled_count = dd.filled_count +
          (dd.fields.filter (fun q =>
            strContains q.1 guardianPattern && q.2 == "")).length) ∧
    (matchesAny guardianPosKeywords "없습니다" = true →
      ((processTurn ⟨[], ""⟩ sessGuardianEmpty "없습니다").2 =
          { sessGuardianEmpty with
            guardian_checked := true, guardian_exists := some true } ∨
        processTurn ⟨[], ""⟩ sessGuardianEmpty "없습니다" =
          mainFlow ⟨[], ""⟩ ({ sessGuardianEmpty with
            guardian_checked := true, guardian_exists := some true }) "없습니다"
            ((⟨"신고서", "__guardian_exists__", "후견인이 있으신가요?"⟩ : Candidate)
              :: []))) ∧
    (matchesAny guardianNegKeywords "없습니다" = false →
      matchesAny guardianPosKeywords "없습니다" = false →
      processTurn ⟨[], ""⟩ sessGuardianEmpty "없습니다" =
        ({ response := "후견인이 있으신가요, 없으신가요?"
           extracted_fields := []
           unfilled_count :=
             ((⟨"신고서", "__guardian_exists__", "후견인이 있으신가요?"⟩ : Candidate)
               :: []).length
           completed := false
           awaiting_confirmation := false
           edit_mode := false }, sessGuardianEmpty))) :=
  ⟨by decide, by decide, rfl,
    C6_guardian_transition ⟨[], ""⟩ sessGuardianEmpty "없습니다"
      ⟨"신고서", "__guardian_exists__", "후견인이 있으신가요?"⟩ [] (by decide)
      (by decide) rfl⟩

/-! ## Claim C8: validator substitution -/

theorem mainFlow_validation (o : Oracles) (s : Session) (u : String)
    (unfilled : List Candidate) (c2 : Candidate) (rest2 : List Candidate)
    (hup : get_unfilled_fields (updatePhase o s u unfilled) = c2 :: rest2)
    (hg : o.genText ≠ "")
    (hfail : validationFails (filledFieldKeywords (updatePhase o s u unfilled))
      o.genText = true) :
    (mainFlow o s u unfilled).1.response =
      strTake ("알겠습니다. " ++ c2.description ++ "는 어떻게 되시나요?") 500 := by
  simp only [mainFlow, hup, List.isEmpty_cons, Bool.false_eq_true, if_false,
    ite_false]
  show strTake (applyValidation (filledFieldKeywords (updatePhase o s u unfilled))
    (c2 :: rest2) o.genText) 500 = _
  rw [applyValidation]
  simp only [List.isEmpty_cons, Bool.false_or, hfail, if_true, ite_true]
  rw [if_neg (by simp [hg])]
  rfl

/-- C8: whenever the post-update unfilled list is non-empty and the
(non-empty) generated dialogue turn fails any of the three validation
checks — it contains a completion/closing phrase, its cleaned last line
does not end in a question mark, or it asks again for an already-filled
description — the returned response is the deterministic fallback question
built from the description of the first pending candidate (clipped like
every response to 500 code points), not the generated turn. -/
theorem C8_validator_substitution (o : Oracles) (s : Session) (u : String)
    (c2 : Candidate) (rest2 : List Candidate)
    (hedit : (s.final_confirmation_shown && !s.completed &&
      matchesAny negativeEditKeywords u) = false)
    (hng : (get_unfilled_fields s).all
      (fun c => c.field != "__guardian_exists__") = true)
    (hup : get_unfilled_fields
      (updatePhase o s u (get_unfilled_fields s)) = c2 :: rest2)
    (hg : o.genText ≠ "")
    (hfail : validationFails
      (filledFieldKeywords (updatePhase o s u (get_unfilled_fields s)))
      o.genText = true) :
    (processTurn o s u).1.response =
      strTake ("알겠습니다. " ++ c2.description ++ "는 어떻게 되시나요?") 500 := by
  rcases hun : get_unfilled_fields s with _ | ⟨c0, r0⟩
  · rw [hun] at hup hfail
    simp only [processTurn, hedit, Bool.false_eq_true, if_false, ite_false, hun]
    exact mainFlow_validation o s u [] c2 rest2 hup hg hfail
  · rw [hun] at hup hfail hng
    simp only [List.all_cons, Bool.and_eq_true] at hng
    simp only [processTurn, hedit, Bool.false_eq_true, if_false, ite_false, hun]
    rw [if_neg (by simpa using hng.1)]
    exact mainFlow_validation o s u (c0 :: r0) c2 rest2 hup hg hfail

/-- Witness for C8: a generated turn "완료되었습니다." (a forbidden closing
phrase) on the one-empty-field session is replaced by the fallback
question naming 신고인 이름. -/
theorem C8_validator_substitution_witness :
    ((sessOneEmpty.final_confirmation_shown && !sessOneEmpty.completed &&
      matchesAny negativeEditKeywords "네") = false) ∧
    ((get_unfilled_fields sessOneEmpty).all
      (fun c => c.field != "__guardian_exists__") = true) ∧
    (get_unfilled_fields
      (updatePhase ⟨[], "완료되었습니다."⟩ sessOneEmpty "네"
        (get_unfilled_fields sessOneEmpty)) =
      (⟨"신고서", "person.name", "신고인 이름"⟩ : Candidate) :: []) ∧
    (("완료되었습니다." : String) ≠ "") ∧
    (validationFails
      (filledFieldKeywords (updatePhase ⟨[], "완료되었습니다."⟩ sessOneEmpty "네"
        (get_unfilled_fields sessOneEmpty)))
      "완료되었습니다." = true) ∧
    (processTurn ⟨[], "완료되었습니다."⟩ sessOneEmpty "네").1.response =
      strTake ("알겠습니다. " ++
        (⟨"신고서", "person.name", "신고인 이름"⟩ : Candidate).description ++
        "는 어떻게 되시나요?") 500 :=
  ⟨by decide, by decide, by decide, by decide, by decide,
    C8_validator_substitution ⟨[], "완료되었습니다."⟩ sessOneEmpty "네"
      ⟨"신고서", "person.name", "신고인 이름"⟩ [] (by decide) (by decide)
      (by decide) (by decide) (by decide)⟩

/-! ## Claim C9: the skip force fill -/

theorem applySkip_eq (s : Session) (u : String) (cdo : Option String)
    (c0 : Candidate) (rest : List Candidate)
    (hskip : matchesAny skipKeywords u = true)
    (h0 : c0.field ≠ "__guardian_exists__") :
    applySkip s cdo (c0 :: rest) u true =
      ((c0 :: rest).take 5).foldl
        (fun st fi =>
          if fi.field ≠ "__guardian_exists__" then
            match cdo with
            | some c => (update_form_field st c fi.field "N/A").1
            | none => st
          else st) s := by
  unfold applySkip
  rw [hskip]
  simp only [Bool.and_self, if_true, ite_true]
  rw [if_pos h0]

theorem update_noop (st : Session) (c f v : String)
    (h : ∀ dd, alookup st.documents c = some dd → alookup dd.fields f = none) :
    update_form_field st c f v = (st, false) := by
  unfold update_form_field
  rcases hdd : alookup st.documents c with _ | dd
  · simp only [hdd]
  · simp only [hdd, h dd hdd]

/-- C9 counterexample: with the skip utterance "스킵", no extracted fields
and a non-pseudo pending head, the second pending candidate — which lives
in docB while the current document is docA — is NOT filled with "N/A": the
force fill always aims update_form_field at the current document, so
beta.q of docB stays empty. -/
theorem C9_skip_misses_other_document :
    matchesAny skipKeywords "스킵" = true ∧
    get_unfilled_fields sessTwoDocs =
      [⟨"docA", "alpha.q", "앞 질문"⟩, ⟨"docB", "beta.q", "뒤 질문"⟩] ∧
    sessTwoDocs.current_document = some "docA" ∧
    (∃ dd, alookup (processTurn ⟨[], "다음 질문은요?"⟩ sessTwoDocs
        "스킵").2.documents "docB" = some dd ∧
      alookup dd.fields "beta.q" = some "") := by
  decide

/-- C9 (amended): when the utterance matches the skip vocabulary, nothing
was extracted and no pending candidate is the guardian pseudo-field, the
force fill folds update_form_field "N/A" over the first up-to-5 pending
candidates aimed ALWAYS at the session's current document — never at the
candidate's own document (see C9_skip_misses_other_document) — and in
particular when none of those candidate fields exists in the current
document the whole force fill is a no-op. -/
theorem C9_skip_current_document_only (s : Session) (u : String) (cd : String)
    (unfilled : List Candidate) (c0 : Candidate) (rest : List Candidate)
    (hskip : matchesAny skipKeywords u = true)
    (hun : unfilled = c0 :: rest)
    (hAll : unfilled.all (fun c => c.field != "__guardian_exists__") = true)
    (hcd : s.current_document = some cd) :
    applySkip s s.current_document unfilled u true =
      (unfilled.take 5).foldl
        (fun st fi => (update_form_field st cd fi.field "N/A").1) s ∧
    ((∀ fi ∈ unfilled.take 5, ∀ dd, alookup s.documents cd = some dd →
        alookup dd.fields fi.field = none) →
      applySkip s s.current_document unfilled u true = s) := by
  subst hun
  have hAll5 : ∀ fi ∈ (c0 :: rest).take 5,
      (fi.field != "__guardian_exists__") = true := by
    intro fi hfi
    exact List.all_eq_true.mp hAll fi (List.mem_of_mem_take hfi)
  have h0 : c0.field ≠ "__guardian_exists__" := by
    have := hAll5 c0 (show c0 ∈ c0 :: rest.take 4 from List.mem_cons_self c0 _)
    simpa using this
  have hfold : ∀ (l : List Candidate) (st : Session),
      (∀ fi ∈ l, (fi.field != "__guardian_exists__") = true) →
      l.foldl (fun st fi =>
        if fi.field ≠ "__guardian_exists__" then
          (update_form_field st cd fi.field "N/A").1
        else st) st =
      l.foldl (fun st fi => (update_form_field st cd fi.field "N/A").1) st := by
    intro l
    induction l with
    | nil => intro st _; rfl
    | cons a t ih =>
      intro st hl
      rw [List.foldl_cons, List.foldl_cons,
        if_pos (by simpa using hl a (List.mem_cons_self a t))]
      exact ih _ (fun fi hfi => hl fi (List.mem_cons_of_mem a hfi))
  have hmain : applySkip s s.current_document (c0 :: rest) u true =
      ((c0 :: rest).take 5).foldl
        (fun st fi => (update_form_field st cd fi.field "N/A").1) s := by
    rw [hcd, applySkip_eq s u (some cd) c0 rest hskip h0]
    show ((c0 :: rest).take 5).foldl
      (fun st fi =>
        if fi.field ≠ "__guardian_exists__" then
          (update_form_field st cd fi.field "N/A").1
        else st) s = _
    exact hfold _ s hAll5
  refine ⟨hmain, fun habs => ?_⟩
  rw [hmain]
  have hnoop : ∀ (l : List Candidate),
      (∀ fi ∈ l, ∀ dd, alookup s.documents cd = some dd →
        alookup dd.fields fi.field = none) →
      l.foldl (fun st fi => (update_form_field st cd fi.field "N/A").1) s = s := by
    intro l
    induction l with
    | nil => intro _; rfl
    | cons a t ih =>
      intro hl
      rw [List.foldl_cons,
        show (update_form_field s cd a.field "N/A").1 = s from by
          rw [update_noop s cd a.field "N/A" (hl a (List.mem_cons_self a t))]]
      exact ih (fun fi hfi => hl fi (List.mem_cons_of_mem a hfi))
  exact hnoop _ habs

/-- Witness for C9_skip_current_document_only on the two-document session
and the skip utterance "스킵". -/
theorem C9_skip_current_document_only_witness :
    matchesAny skipKeywords "스킵" = true ∧
    get_unfilled_fields sessTwoDocs =
      (⟨"docA", "alpha.q", "앞 질문"⟩ : Candidate) ::
        [⟨"docB", "beta.q", "뒤 질문"⟩] ∧
    (get_unfilled_fields sessTwoDocs).all
      (fun c => c.field != "__guardian_exists__") = true ∧
    sessTwoDocs.current_document = some "docA" ∧
    (applySkip sessTwoDocs sessTwoDocs.current_document
        (get_unfilled_fields sessTwoDocs) "스킵" true =
      ((get_unfilled_fields sessTwoDocs).take 5).foldl
        (fun st fi => (update_form_field st "docA" fi.field "N/A").1)
        sessTwoDocs ∧
    ((∀ fi ∈ (get_unfilled_fields sessTwoDocs).take 5, ∀ dd,
        alookup sessTwoDocs.documents "docA" = some dd →
        alookup dd.fields fi.field = none) →
      applySkip sessTwoDocs sessTwoDocs.current_document
        (get_unfilled_fields sessTwoDocs) "스킵" true = sessTwoDocs)) :=
  ⟨by decide, by decide, by decide, by decide,
    C9_skip_current_document_only sessTwoDocs "스킵" "docA"
      (get_unfilled_fields sessTwoDocs) ⟨"docA", "alpha.q", "앞 질문"⟩
      [⟨"docB", "beta.q", "뒤 질문"⟩] (by decide) (by decide) (by decide)
      (by decide)⟩

/-! ## Claim C10: schema comment stripping -/

theorem stripLoop_take : ∀ (l : List Char) (prev : Option Char) (inStr : Bool),
    stripLoop l prev inStr = l.take (cutIndex l prev inStr) := by
  intro l
  induction l with
  | nil => intro prev inStr; rfl
  | cons c rest ih =>
    intro prev inStr
    by_cases h1 : quoteToggles c prev = true
    · simp only [stripLoop, cutIndex, h1, if_true, ite_true]
      rw [Nat.add_comm, List.take_succ_cons, ih]
    · by_cases h2 : commentBreak c rest inStr = true
      · simp only [stripLoop, cutIndex, h1, h2, Bool.false_eq_true, if_false,
          ite_false, if_true, ite_true]
        rfl
      · simp only [stripLoop, cutIndex, h1, h2, Bool.false_eq_true, if_false,
          ite_false]
        rw [Nat.add_comm, List.take_succ_cons, ih]

theorem inString_lt_cut : ∀ (l : List Char) (prev : Option Char) (inStr : Bool)
    (j : Nat) (b : Bool), inStringAt l prev inStr j = some b →
    j < cutIndex l prev inStr := by
  intro l
  induction l with
  | nil => intro prev inStr j b h; simp [inStringAt] at h
  | cons c rest ih =>
    intro prev inStr j b h
    by_cases h1 : quoteToggles c prev = true
    · rw [inStringAt] at h
      rw [cutIndex]
      simp only [h1, if_true, ite_true] at h ⊢
      by_cases hj : j = 0
      · omega
      · rw [if_neg hj] at h
        have := ih (some c) (!inStr) (j - 1) b h
        omega
    · by_cases h2 : commentBreak c rest inStr = true
      · rw [inStringAt] at h
        simp only [h1, Bool.false_eq_true, if_false, ite_false, h2, if_true,
          ite_true] at h
        exact Option.noConfusion h
      · rw [inStringAt] at h
        rw [cutIndex]
        simp only [h1, h2, Bool.false_eq_true, if_false, ite_false] at h ⊢
        by_cases hj : j = 0
        · omega
        · rw [if_neg hj] at h
          have := ih (some c) inStr (j - 1) b h
          omega

theorem dropWhile_ws_append : ∀ (w t : List Char),
    (∀ x ∈ w, pyWhitespace x = true) →
    (w ++ t).dropWhile pyWhitespace = t.dropWhile pyWhitespace := by
  intro w
  induction w with
  | nil => intro t _; rfl
  | cons x xs ih =>
    intro t hw
    rw [List.cons_append, List.dropWhile_cons,
      if_pos (hw x (List.mem_cons_self x xs))]
    exact ih t (fun y hy => hw y (List.mem_cons_of_mem x hy))

/-- C10 counterexample: the trailing-comma regex runs on the whole joined
text without string awareness, so a comma INSIDE a quoted string that is
followed by a closing brace is eaten: cleaning the valid JSON text
\x7b"a": "x,\x7d"\x7d removes the comma of the string value "x,\x7d". -/
theorem C10_regex_eats_string_comma :
    inStringAt ("\x7b\"a\": \"x,\x7d\"\x7d".toList) none false 8 = some true ∧
    ("\x7b\"a\": \"x,\x7d\"\x7d".toList).getD 8 ' ' = ',' ∧
    cleanContent "\x7b\"a\": \"x,\x7d\"\x7d" = "\x7b\"a\": \"x\x7d\"\x7d" := by
  decide

/-- C10 (amended): the per-line comment scan only truncates a line at the
first outside-string "//" (it equals a take at the cut index and every
position the scanner classifies as inside a quoted string survives the
cut), a trailing comma whose next non-whitespace character is a closing
bracket or brace is dropped by the trailing-comma stage, and an invalid
cleaned text yields the empty mapping instead of an exception.  The frozen
claim's "every comma inside a quoted string is preserved" is refuted by
C10_regex_eats_string_comma: the trailing-comma stage is not
string-aware. -/
theorem C10_comment_stripping :
    (∀ (l : List Char) (prev : Option Char) (inStr : Bool),
      stripLoop l prev inStr = l.take (cutIndex l prev inStr)) ∧
    (∀ (l : List Char) (j : Nat),
      inStringAt l none false j = some true → j < cutIndex l none false) ∧
    (∀ (w b : List Char) (close : Char),
      (∀ x ∈ w, pyWhitespace x = true) →
      (close = ']' ∨ close = Char.ofNat 125) →
      rtcList (',' :: (w ++ close :: b)) = rtcList (w ++ close :: b)) ∧
    (∀ (jsonLoads : String → Option (List (String × String)))
      (emptyMapping : List (String × String)) (content : String),
      jsonLoads (cleanContent content) = none →
      parse_json_with_comments jsonLoads emptyMapping content = emptyMapping) := by
  refine ⟨stripLoop_take, fun l j h => inString_lt_cut l none false j true h,
    ?_, ?_⟩
  · intro w b close hw hc
    have hclose : nextNonWsIsClose (w ++ close :: b) = true := by
      rw [nextNonWsIsClose, dropWhile_ws_append w (close :: b) hw]
      rcases hc with rfl | rfl
      · rw [List.dropWhile_cons, if_neg (by decide)]
        rfl
      · rw [List.dropWhile_cons, if_neg (by decide)]
        rfl
    show (if (',' : Char) = ',' ∧ nextNonWsIsClose (w ++ close :: b) = true
      then rtcList (w ++ close :: b)
      else ',' :: rtcList (w ++ close :: b)) = rtcList (w ++ close :: b)
    rw [if_pos ⟨rfl, hclose⟩]
  · intro jsonLoads emptyMapping content h
    rw [parse_json_with_comments, h]
    rfl

/-- Witness for C10_comment_stripping at concrete inputs: a
whitespace-then-bracket trailing comma and an in-string position of a
small line. -/
theorem C10_comment_stripping_witness :
    (∀ x ∈ [' '], pyWhitespace x = true) ∧
    ((']' : Char) = ']' ∨ (']' : Char) = Char.ofNat 125) ∧
    rtcList (',' :: ([' '] ++ ']' :: [])) = rtcList ([' '] ++ ']' :: []) ∧
    inStringAt ['"', 'a', '"'] none false 1 = some true ∧
    1 < cutIndex ['"', 'a', '"'] none false :=
  ⟨by decide, Or.inl rfl,
    C10_comment_stripping.2.2.1 [' '] [] ']' (by decide) (Or.inl rfl),
    by decide,
    C10_comment_stripping.2.1 ['"', 'a', '"'] 1 (by decide)⟩

/-! ## Claim C1: the two-step completion flow -/

theorem fill_flag (s : Session) (src v : String) :
    (auto_fill_common_fields s src v).final_confirmation_shown =
      s.final_confirmation_shown := by
  rcases h : (categoryGroups s.category).find? (fun g => g.contains src) with _ | related
  · rw [fill_none v h]
  · rw [fill_some v h]

theorem calc_flag (s : Session) (dn fn : String) :
    (auto_calculate_period s dn fn).final_confirmation_shown =
      s.final_confirmation_shown := by
  unfold auto_calculate_period
  rcases h : alookup s.documents dn with _ | dd <;> simp only [h] <;> rfl

theorem update_flag (s : Session) (dn fn v : String) :
    (update_form_field s dn fn v).1.final_confirmation_shown =
      s.final_confirmation_shown := by
  unfold update_form_field
  rcases hdd : alookup s.documents dn with _ | dd
  · simp only [hdd]
  · simp only [hdd]
    rcases hold : alookup dd.fields fn with _ | old
    · simp only [hold]
    · simp only [hold]
      rw [calc_flag, fill_flag]
      rfl

theorem tryDocs_flag : ∀ (names : List String) (s : Session) (skip : Option String)
    (fn v : String),
    (tryDocs s names skip fn v).1.final_confirmation_shown =
      s.final_confirmation_shown := by
  intro names
  induction names with
  | nil => intro s skip fn v; rfl
  | cons n rest ih =>
    intro s skip fn v
    rw [tryDocs]
    by_cases hsk : some n = skip
    · rw [if_pos hsk]
      exact ih s skip fn v
    · rw [if_neg hsk]
      rcases hres : update_form_field s n fn v with ⟨s1, b⟩
      have hs1 : s1.final_confirmation_shown = s.final_confirmation_shown := by
        have := update_flag s n fn v
        rw [hres] at this
        exact this
      cases b
      · rw [ih s1 skip fn v]
        exact hs1
      · exact hs1

theorem applyExtracted_flag (ext : List (String × String)) :
    ∀ (s : Session) (cd : Option String),
    (applyExtracted s cd ext).final_confirmation_shown =
      s.final_confirmation_shown := by
  induction ext with
  | nil => intro s cd; rfl
  | cons q t ih =>
    intro s cd
    rcases cd with _ | c
    · show (applyExtracted
        (tryDocs s (s.documents.map (fun p => p.1)) none q.1 q.2).1
        none t).final_confirmation_shown = _
      rw [ih]
      exact tryDocs_flag _ s none q.1 q.2
    · show (applyExtracted
        (if (update_form_field s c q.1 q.2).2 then (update_form_field s c q.1 q.2).1
         else (tryDocs (update_form_field s c q.1 q.2).1
           ((update_form_field s c q.1 q.2).1.documents.map (fun p => p.1))
           (some c) q.1 q.2).1)
        (some c) t).final_confirmation_shown = _
      rw [ih]
      rcases hres : update_form_field s c q.1 q.2 with ⟨s1, b⟩
      have hs1 : s1.final_confirmation_shown = s.final_confirmation_shown := by
        have := update_flag s c q.1 q.2
        rw [hres] at this
        exact this
      cases b
      · show (tryDocs s1 (s1.documents.map (fun p => p.1))
          (some c) q.1 q.2).1.final_confirmation_shown = _
        rw [tryDocs_flag]
        exact hs1
      · exact hs1

theorem applySkip_flag (s : Session) (cd : Option String)
    (unfilled : List Candidate) (u : String) (e : Bool) :
    (applySkip s cd unfilled u e).final_confirmation_shown =
      s.final_confirmation_shown := by
  unfold applySkip
  by_cases h1 : (matchesAny skipKeywords u && e) = true
  · rw [if_pos h1]
    rcases unfilled with _ | ⟨c0, rest⟩
    · rfl
    · show (if c0.field ≠ "__guardian_exists__" then
          ((c0 :: rest).take 5).foldl (fun st fi =>
            if fi.field ≠ "__guardian_exists__" then
              match cd with
              | some c => (update_form_field st c fi.field "N/A").1
              | none => st
            else st) s
        else s).final_confirmation_shown = _
      by_cases h2 : c0.field ≠ "__guardian_exists__"
      · rw [if_pos h2]
        have hfold : ∀ (l : List Candidate) (st : Session),
            (l.foldl (fun st fi =>
              if fi.field ≠ "__guardian_exists__" then
                match cd with
                | some c => (update_form_field st c fi.field "N/A").1
                | none => st
              else st) st).final_confirmation_shown =
            st.final_confirmation_shown := by
          intro l
          induction l with
          | nil => intro st; rfl
          | cons a t ih =>
            intro st
            rw [List.foldl_cons, ih]
            by_cases ha : a.field ≠ "__guardian_exists__"
            · rw [if_pos ha]
              rcases cd with _ | c
              · rfl
              · exact update_flag st c a.field "N/A"
            · rw [if_neg ha]
        exact hfold _ s
      · rw [if_neg h2]
  · rw [if_neg h1]

theorem updatePhase_flag (o : Oracles) (s : Session) (u : String)
    (unfilled : List Candidate) :
    (updatePhase o s u unfilled).final_confirmation_shown =
      s.final_confirmation_shown := by
  unfold updatePhase
  by_cases h : unfilled.isEmpty = true
  · rw [if_pos h]
  · rw [if_neg h, applySkip_flag, applyExtracted_flag]

theorem mainFlow_completed (o : Oracles) (s : Session) (u : String)
    (unf : List Candidate) :
    (mainFlow o s u unf).1.completed = true →
    (updatePhase o s u unf).final_confirmation_shown = true := by
  unfold mainFlow
  rcases hu2 : get_unfilled_fields (updatePhase o s u unf) with _ | ⟨x, xs⟩
  · simp only [hu2, List.isEmpty_nil, if_true, ite_true]
    by_cases hf : (updatePhase o s u unf).final_confirmation_shown = true
    · intro _
      exact hf
    · have hf' : (updatePhase o s u unf).final_confirmation_shown = false :=
        Bool.eq_false_iff.mpr hf
      rw [hf']
      intro hc
      exact absurd hc (by simp)
  · simp only [hu2, List.isEmpty_cons, Bool.false_eq_true, if_false, ite_false]
    intro hc
    exact absurd hc (by simp)

theorem processTurn_completed_flag (o : Oracles) (s : Session) (u : String) :
    (processTurn o s u).1.completed = true →
    s.final_confirmation_shown = true := by
  unfold processTurn
  by_cases hedit : (s.final_confirmation_shown && !s.completed &&
      matchesAny negativeEditKeywords u) = true
  · rw [if_pos hedit]
    intro hc
    exact absurd hc (by simp)
  · rw [if_neg hedit]
    rcases hun : get_unfilled_fields s with _ | ⟨c0, r0⟩
    · intro hc
      have := mainFlow_completed o s u [] hc
      rw [updatePhase_flag] at this
      exact this
    · by_cases hps : c0.field = "__guardian_exists__"
      · dsimp only
        rw [if_pos hps]
        by_cases hneg : (matchesAny guardianNegKeywords u &&
            !matchesAny guardianPosKeywords u) = true
        · rw [if_pos hneg]
          rcases hrec : get_unfilled_fields (fillGuardianNA { s with
              guardian_checked := true, guardian_exists := some false })
            with _ | ⟨v2, r2⟩
          · intro hc
            have := mainFlow_completed o _ u (c0 :: r0) hc
            rw [updatePhase_flag] at this
            exact this
          · intro hc
            exact absurd hc (by simp)
        · rw [if_neg hneg]
          by_cases hpos : matchesAny guardianPosKeywords u = true
          · rw [if_pos hpos]
            rcases hrec : get_unfilled_fields ({ s with
                guardian_checked := true, guardian_exists := some true } : Session)
              with _ | ⟨v2, r2⟩
            · intro hc
              have := mainFlow_completed o _ u (c0 :: r0) hc
              rw [updatePhase_flag] at this
              exact this
            · intro hc
              exact absurd hc (by simp)
          · rw [if_neg hpos]
            intro hc
            exact absurd hc (by simp)
      · dsimp only
        rw [if_neg hps]
        intro hc
        have := mainFlow_completed o s u (c0 :: r0) hc
        rw [updatePhase_flag] at this
        exact this

theorem mainFlow_flag_source (o : Oracles) (s : Session) (u : String)
    (unf : List Candidate) :
    (mainFlow o s u unf).2.final_confirmation_shown = true →
    (updatePhase o s u unf).final_confirmation_shown = true ∨
      (mainFlow o s u unf).1.awaiting_confirmation = true := by
  unfold mainFlow
  rcases hu2 : get_unfilled_fields (updatePhase o s u unf) with _ | ⟨x, xs⟩
  · simp only [hu2, List.isEmpty_nil, if_true, ite_true]
    by_cases hf : (updatePhase o s u unf).final_confirmation_shown = true
    · rw [hf]
      intro _
      exact Or.inl rfl
    · have hf' : (updatePhase o s u unf).final_confirmation_shown = false :=
        Bool.eq_false_iff.mpr hf
      rw [hf']
      intro _
      exact Or.inr rfl
  · simp only [hu2, List.isEmpty_cons, Bool.false_eq_true, if_false, ite_false]
    intro h
    exact Or.inl h

theorem processTurn_flag_source (o : Oracles) (s : Session) (u : String) :
    (processTurn o s u).2.final_confirmation_shown = true →
    s.final_confirmation_shown = true ∨
      (processTurn o s u).1.awaiting_confirmation = true := by
  unfold processTurn
  by_cases hedit : (s.final_confirmation_shown && !s.completed &&
      matchesAny negativeEditKeywords u) = true
  · rw [if_pos hedit]
    intro hc
    exact absurd hc (by simp)
  · rw [if_neg hedit]
    rcases hun : get_unfilled_fields s with _ | ⟨c0, r0⟩
    · intro h
      rcases mainFlow_flag_source o s u [] h with h1 | h1
      · rw [updatePhase_flag] at h1
        exact Or.inl h1
      · exact Or.inr h1
    · by_cases hps : c0.field = "__guardian_exists__"
      · dsimp only
        rw [if_pos hps]
        by_cases hneg : (matchesAny guardianNegKeywords u &&
            !matchesAny guardianPosKeywords u) = true
        · rw [if_pos hneg]
          rcases hrec : get_unfilled_fields (fillGuardianNA { s with
              guardian_checked := true, guardian_exists := some false })
            with _ | ⟨v2, r2⟩
          · intro h
            rcases mainFlow_flag_source o _ u (c0 :: r0) h with h1 | h1
            · rw [updatePhase_flag] at h1
              exact Or.inl h1
            · exact Or.inr h1
          · intro h
            exact Or.inl h
        · rw [if_neg hneg]
          by_cases hpos : matchesAny guardianPosKeywords u = true
          · rw [if_pos hpos]
            rcases hrec : get_unfilled_fields ({ s with
                guardian_checked := true, guardian_exists := some true } : Session)
              with _ | ⟨v2, r2⟩
            · intro h
              rcases mainFlow_flag_source o _ u (c0 :: r0) h with h1 | h1
              · rw [updatePhase_flag] at h1
                exact Or.inl h1
              · exact Or.inr h1
            · intro h
              exact Or.inl h
          · rw [if_neg hpos]
            intro h
            exact Or.inl h
      · dsimp only
        rw [if_neg hps]
        intro h
        rcases mainFlow_flag_source o s u (c0 :: r0) h with h1 | h1
        · rw [updatePhase_flag] at h1
          exact Or.inl h1
        · exact Or.inr h1

theorem runTurns_no_premature_complete :
    ∀ (ts : List (Oracles × String)) (s : Session),
    s.final_confirmation_shown = false →
    ∀ (i : Nat) (out : TurnOutput), (runTurns s ts).1[i]? = some out →
      out.completed = true →
      ∃ (j : Nat) (out2 : TurnOutput), j < i ∧
        (runTurns s ts).1[j]? = some out2 ∧ out2.awaiting_confirmation = true := by
  intro ts
  induction ts with
  | nil =>
    intro s hflag i out hget hc
    exact absurd hget (by simp [runTurns])
  | cons t rest ih =>
    intro s hflag i out hget hc
    have hcons : (runTurns s (t :: rest)).1 =
        (processTurn t.1 s t.2).1 ::
          (runTurns (processTurn t.1 s t.2).2 rest).1 := rfl
    rw [hcons] at hget
    rcases i with _ | n
    · rw [List.getElem?_cons_zero] at hget
      obtain rfl : (processTurn t.1 s t.2).1 = out := by injection hget
      have := processTurn_completed_flag t.1 s t.2 hc
      rw [hflag] at this
      exact absurd this (by simp)
    · rw [List.getElem?_cons_succ] at hget
      by_cases hf2 : (processTurn t.1 s t.2).2.final_confirmation_shown = true
      · rcases processTurn_flag_source t.1 s t.2 hf2 with h1 | h1
        · rw [hflag] at h1
          exact absurd h1 (by simp)
        · refine ⟨0, (processTurn t.1 s t.2).1, Nat.succ_pos n, ?_, h1⟩
          rw [hcons, List.getElem?_cons_zero]
      · have hf2' : (processTurn t.1 s t.2).2.final_confirmation_shown = false :=
          Bool.eq_false_iff.mpr hf2
        obtain ⟨j, out2, hj, hget2, ha⟩ :=
          ih (processTurn t.1 s t.2).2 hf2' n out hget hc
        refine ⟨j + 1, out2, Nat.succ_lt_succ hj, ?_, ha⟩
        rw [hcons, List.getElem?_cons_succ]
        exact hget2

theorem processTurn_summary (o : Oracles) (s : Session) (u : String)
    (hflag : s.final_confirmation_shown = false)
    (hun : get_unfilled_fields s = []) :
    processTurn o s u =
      ({ response := buildConfirmationMessage s
         extracted_fields := []
         unfilled_count := 0
         completed := false
         awaiting_confirmation := true
         edit_mode := false },
       { s with final_confirmation_shown := true }) := by
  have hedit : (s.final_confirmation_shown && !s.completed &&
      matchesAny negativeEditKeywords u) = false := by
    rw [hflag]
    rfl
  simp only [processTurn, hedit, Bool.false_eq_true, if_false, ite_false, hun]
  simp only [mainFlow, updatePhase, List.isEmpty_nil, if_true, ite_true, hun,
    hflag, Bool.not_false]

theorem processTurn_edit (o : Oracles) (s : Session) (u : String)
    (hflag : s.final_confirmation_shown = true)
    (hcomp : s.completed = false)
    (hmatch : matchesAny negativeEditKeywords u = true) :
    processTurn o s u =
      ({ response := "알겠습니다! 어떤 정보를 수정하시겠어요? 수정하실 내용을 말씀해주세요."
         extracted_fields := []
         unfilled_count := 0
         completed := false
         awaiting_confirmation := false
         edit_mode := true },
       { s with final_confirmation_shown := false }) := by
  unfold processTurn
  rw [if_pos (by rw [hflag, hcomp, hmatch]; rfl)]

theorem processTurn_close (o : Oracles) (s : Session) (u : String)
    (hflag : s.final_confirmation_shown = true)
    (hmatch : matchesAny negativeEditKeywords u = false)
    (hun : get_unfilled_fields s = []) :
    processTurn o s u =
      ({ response := "감사합니다. 제출이 완료되었습니다!"
         extracted_fields := []
         unfilled_count := 0
         completed := true
         awaiting_confirmation := false
         edit_mode := false },
       { s with completed := true }) := by
  have hedit : (s.final_confirmation_shown && !s.completed &&
      matchesAny negativeEditKeywords u) = false := by
    rw [hmatch]
    simp
  simp only [processTurn, hedit, Bool.false_eq_true, if_false, ite_false, hun]
  simp only [mainFlow, updatePhase, List.isEmpty_nil, if_true, ite_true, hun,
    hflag, Bool.not_true, Bool.false_eq_true, if_false, ite_false]

/-- C1 counterexample: the confirmation turn does NOT summarise all filled
non-"N/A" fields.  On an 11-field document with every field filled, the
summary looks at only the first 10 fields of the document and displays only
8 items, so the description a11 of the filled field f11 never appears in
the returned summary response. -/
theorem C1_summary_omits_field :
    get_unfilled_fields sessElevenFilled = [] ∧
    sessElevenFilled.final_confirmation_shown = false ∧
    (∃ dd, alookup sessElevenFilled.documents "신고서" = some dd ∧
      alookup dd.fields "f11" = some "v11" ∧
      alookup dd.descriptions "f11" = some "a11") ∧
    (processTurn ⟨[], ""⟩ sessElevenFilled "네").1.awaiting_confirmation = true ∧
    strContains (processTurn ⟨[], ""⟩ sessElevenFilled "네").1.response "a11" =
      false := by
  decide

/-- C1 (amended): two-step completion.  (1) With the final confirmation not
yet shown and the unfilled list empty, the turn returns the confirmation
summary (built from at most the first 10 fields of each document and at
most 8 displayed items — NOT all filled fields, see C1_summary_omits_field)
with completed=false and awaiting_confirmation=true and sets
final_confirmation_shown.  (2) With the confirmation shown and the session
not completed, an utterance matching the negative/"modify" vocabulary
resets the flag and enters edit mode with completed=false.  (3) With the
confirmation shown, a non-matching utterance on a fully-filled session
closes with completed=true and the acknowledgement text.  (4) Starting from
any session without the confirmation flag, no turn of any run ever outputs
completed=true before some earlier turn has output
awaiting_confirmation=true. -/
theorem C1_two_step_completion :
    (∀ (o : Oracles) (s : Session) (u : String),
      s.final_confirmation_shown = false → get_unfilled_fields s = [] →
      processTurn o s u =
        ({ response := buildConfirmationMessage s
           extracted_fields := []
           unfilled_count := 0
           completed := false
           awaiting_confirmation := true
           edit_mode := false },
         { s with final_confirmation_shown := true })) ∧
    (∀ (o : Oracles) (s : Session) (u : String),
      s.final_confirmation_shown = true → s.completed = false →
      matchesAny negativeEditKeywords u = true →
      processTurn o s u =
        ({ response := "알겠습니다! 어떤 정보를 수정하시겠어요? 수정하실 내용을 말씀해주세요."
           extracted_fields := []
           unfilled_count := 0
           completed := false
           awaiting_confirmation := false
           edit_mode := true },
         { s with final_confirmation_shown := false })) ∧
    (∀ (o : Oracles) (s : Session) (u : String),
      s.final_confirmation_shown = true →
      matchesAny negativeEditKeywords u = false →
      get_unfilled_fields s = [] →
      processTurn o s u =
        ({ response := "감사합니다. 제출이 완료되었습니다!"
           extracted_fields := []
           unfilled_count := 0
           completed := true
           awaiting_confirmation := false
           edit_mode := false },
         { s with completed := true })) ∧
    (∀ (ts : List (Oracles × String)) (s : Session),
      s.final_confirmation_shown = false →
      ∀ (i : Nat) (out : TurnOutput), (runTurns s ts).1[i]? = some out →
        out.completed = true →
        ∃ (j : Nat) (out2 : TurnOutput), j < i ∧
          (runTurns s ts).1[j]? = some out2 ∧
          out2.awaiting_confirmation = true) :=
  ⟨processTurn_summary, processTurn_edit, processTurn_close,
    runTurns_no_premature_complete⟩

/-- Witness for C1_two_step_completion: the summary turn and the closing
turn on the fully-filled one-field session. -/
theorem C1_two_step_completion_witness :
    sessOneFilled.final_confirmation_shown = false ∧
    get_unfilled_fields sessOneFilled = [] ∧
    processTurn ⟨[], ""⟩ sessOneFilled "네" =
      ({ response := buildConfirmationMessage sessOneFilled
         extracted_fields := []
         unfilled_count := 0
         completed := false
         awaiting_confirmation := true
         edit_mode := false },
       { sessOneFilled with final_confirmation_shown := true }) ∧
    processTurn ⟨[], ""⟩ { sessOneFilled with final_confirmation_shown := true }
        "제출해주세요" =
      ({ response := "감사합니다. 제출이 완료되었습니다!"
         extracted_fields := []
         unfilled_count := 0
         completed := true
         awaiting_confirmation := false
         edit_mode := false },
       { { sessOneFilled with final_confirmation_shown := true } with
         completed := true }) :=
  ⟨rfl, by decide,
    C1_two_step_completion.1 ⟨[], ""⟩ sessOneFilled "네" rfl (by decide),
    C1_two_step_completion.2.2.1 ⟨[], ""⟩
      { sessOneFilled with final_confirmation_shown := true } "제출해주세요" rfl
      (by decide) (by decide)⟩
